import Mathlib

/-!
Verification development for the prompt-rewriter service.

The subject program is a TypeScript service with two HTTP endpoints
(`/api/rewrite` and `/api/self-improve`).  Each endpoint validates its
input, optionally augments the request with web-search snippets, checks a
token budget, calls a remote LLM completion service with bounded retries,
and post-processes ("cleans") the raw reply.

This file is a shallow embedding of that pipeline:

* JavaScript strings are modelled by Lean `String` (backed by `List Char`),
  and the character-level normalization passes are modelled by explicit
  recursive functions over `List Char` that implement exactly the regular
  expressions used in the source (each regex is simple enough to admit a
  direct deterministic matcher; comments at each definition record the
  regex it implements).
* The two outbound services (search transport, completion endpoint) are
  modelled by an explicit environment (`Env`): the completion endpoint is
  a function from attempt index to outcome, the search transport either
  throws or returns a result list.  `async`/`await` plays no semantic role
  in the pipeline (all awaits are sequential), so the embedding is a pure
  function of the environment.
* The HTTP handlers are modelled as pure functions from an environment and
  a parsed request body to a response value paired with a trace recording
  which network calls were performed (whether the search transport was
  invoked, how many completion attempts were made, and which backoff
  delays were slept).
-/

namespace PromptRewriter

/-! ### Basic character-list utilities -/

abbrev Chars := List Char

/-- The apostrophe character (U+0027), used to build string literals that
contain it. -/
def apoC : Char := Char.ofNat 39

/-- The apostrophe as a one-character string. -/
def apoS : String := String.mk [apoC]

/-- The bullet character used by the source (`•`). -/
def bulC : Char := Char.ofNat 8226

/-- JS `\s` / `trim` whitespace test (ASCII-faithful). -/
def isWs (c : Char) : Bool := c.isWhitespace

/-- Drop leading whitespace. -/
def dropWsL (cs : Chars) : Chars := cs.dropWhile isWs

/-- Drop trailing whitespace. -/
def dropWsR (cs : Chars) : Chars := (cs.reverse.dropWhile isWs).reverse

/-- JS `String.prototype.trim` on a character list. -/
def trimC (cs : Chars) : Chars := dropWsR (dropWsL cs)

/-- Number of occurrences of `needle` as a contiguous sublist of `hay`
(counted at every start position). -/
def countSub (needle : Chars) : Chars → Nat
  | [] => 0
  | c :: rest => (if needle.isPrefixOf (c :: rest) then 1 else 0) + countSub needle rest

/-- `needle` occurs as a contiguous sublist of `hay` starting at some
position strictly inside the list (JS `String.prototype.includes`
is `hasSub` below with position 0 allowed). -/
def hasSub (needle hay : Chars) : Bool :=
  match hay with
  | [] => needle.isEmpty
  | c :: rest => needle.isPrefixOf (c :: rest) || hasSub needle rest

/-- Case-insensitive literal matcher: consume `lit` (given in lowercase)
from the head of `cs`, comparing `Char.toLower` of each input character;
returns the remainder on success.  This implements the literal part of the
source's case-insensitive (`/i`) anchored regexes. -/
def dropLitCI : Chars → Chars → Option Chars
  | [], cs => some cs
  | _ :: _, [] => none
  | l :: ls, c :: cs => if c.toLower = l then dropLitCI ls cs else none

/-- Split on `'\n'` exactly like JS `String.prototype.split('\n')`
(empty segments are kept; the result is never empty). -/
def splitNL : Chars → List Chars
  | [] => [[]]
  | c :: rest =>
    if c = '\n' then [] :: splitNL rest
    else
      match splitNL rest with
      | l :: ls => (c :: l) :: ls
      | [] => [[c]]

/-- JS `Array.prototype.join('\n')`. -/
def joinNL (lines : List Chars) : Chars := List.intercalate ['\n'] lines

/-! ### Model configuration and error catalogue (source: `route.ts` top) -/

structure ModelConfig where
  name : String
  maxContextTokens : Nat
  maxCompletionTokens : Nat
  charToTokenRatio : Nat

def MODEL_CONFIG : ModelConfig :=
  { name := "llama-3.3-70b-versatile"
    maxContextTokens := 131072
    maxCompletionTokens := 32768
    charToTokenRatio := 4 }

structure ErrorMessages where
  RATE_LIMIT : String
  PAYLOAD_TOO_LARGE : String
  NETWORK_TIMEOUT : String
  INVALID_API_KEY : String
  SERVICE_UNAVAILABLE : String
  GENERIC_ERROR : String

def ERROR_MESSAGES : ErrorMessages :=
  { RATE_LIMIT := "Service is experiencing high demand. Please wait a moment and try again."
    PAYLOAD_TOO_LARGE := "Your prompt is too long. Please shorten it and try again."
    NETWORK_TIMEOUT := "Request timed out. Please check your connection and try again."
    INVALID_API_KEY := "Service configuration error. Please contact support."
    SERVICE_UNAVAILABLE := "Service temporarily unavailable. Please try again in a few minutes."
    GENERIC_ERROR := "An unexpected error occurred. Please try again." }

/-- `estimateTokenCount`: `Math.ceil(text.length / 4)`, written as integer
ceiling division. -/
def estimateTokenCount (text : String) : Nat :=
  (text.length + (MODEL_CONFIG.charToTokenRatio - 1)) / MODEL_CONFIG.charToTokenRatio

/-- The total the validator compares against the budget. -/
def totalInputTokens (systemInstructions userMessage webData : String) : Nat :=
  estimateTokenCount systemInstructions + estimateTokenCount userMessage +
    estimateTokenCount webData

/-- `validateTokenLimits`: true iff the summed estimate is at most
`maxContextTokens * 0.8`.  The source compares the integer total against
`131072 * 0.8` computed in binary floating point; both that float and the
exact rational `104857.6` lie strictly between the integers `104857` and
`104858`, so the comparison is equivalent to the exact rational one, which
(multiplying both sides by 5, with `0.8 = 4/5`) is the integer comparison
below.  (The rational form is recovered in the C1 theorem.) -/
def validateTokenLimits (systemInstructions userMessage webData : String) : Bool :=
  decide (5 * totalInputTokens systemInstructions userMessage webData ≤
    4 * MODEL_CONFIG.maxContextTokens)

/-! ### Resilient completion invoker (`callGroqWithRetry`) -/

/-- A chat message, as sent to the completion provider. -/
structure ChatMessage where
  role : String
  content : String

/-- Outcome of one provider invocation, as observed by the `catch` block:
either a completion whose `choices[0]?.message?.content` is the given
optional string, or a thrown error carrying an optional HTTP `status` and
a flag for `code === 'ECONNABORTED' || message.includes('timeout')`. -/
inductive GroqOutcome where
  | success (content : Option String)
  | failure (status : Option Nat) (isTimeout : Bool)
deriving DecidableEq

deriving instance DecidableEq for Except

/-- Result of the retry loop, with an observability trace: the value
returned or error thrown, the number of attempts performed, and the
backoff delays (ms) slept between attempts, in order. -/
structure RetryResult where
  outcome : Except String (Option String)
  attempts : Nat
  waits : List Nat
deriving DecidableEq

/-- The fixed backoff schedule `[1000, 2000, 4000]` ms. -/
def retryDelays : List Nat := [1000, 2000, 4000]

/-- The body of the source's `for (let attempt = 0; attempt < retries; attempt++)`
loop, with the error-classification chain translated branch for branch.
`api attempt` is the outcome of the provider call on that attempt.
`remaining` counts the loop iterations still allowed (the wrapper passes
`retries`, so `remaining = retries - attempt` throughout and the loop
guard `attempt < retries` is exactly `remaining > 0`); recursing on it
keeps the recursion structural.  Falling off the loop is unreachable
whenever `retries ≥ 1`, because the final attempt always returns or
throws; the self-improve copy of the function throws `GENERIC_ERROR`
there. -/
def callGroqGo (api : Nat → GroqOutcome) (retries : Nat) :
    Nat → Nat → List Nat → RetryResult
  | 0, attempt, waits => ⟨.error ERROR_MESSAGES.GENERIC_ERROR, attempt, waits⟩
  | remaining + 1, attempt, waits =>
    match api attempt with
    | .success content => ⟨.ok content, attempt + 1, waits⟩
    | .failure status isTimeout =>
      let isLastAttempt : Bool := attempt = retries - 1
      if status = some 429 then
        if ¬isLastAttempt then
          callGroqGo api retries remaining (attempt + 1)
            (waits ++ [retryDelays.getD attempt 0 * 2])
        else ⟨.error ERROR_MESSAGES.RATE_LIMIT, attempt + 1, waits⟩
      else if status = some 413 then
        ⟨.error ERROR_MESSAGES.PAYLOAD_TOO_LARGE, attempt + 1, waits⟩
      else if isTimeout then
        if ¬isLastAttempt then
          callGroqGo api retries remaining (attempt + 1)
            (waits ++ [retryDelays.getD attempt 0])
        else ⟨.error ERROR_MESSAGES.NETWORK_TIMEOUT, attempt + 1, waits⟩
      else if status = some 401 ∨ status = some 403 then
        ⟨.error ERROR_MESSAGES.INVALID_API_KEY, attempt + 1, waits⟩
      -- `error.status >= 500` (false when `status` is absent)
      else if 500 ≤ status.getD 0 then
        if ¬isLastAttempt then
          callGroqGo api retries remaining (attempt + 1)
            (waits ++ [retryDelays.getD attempt 0])
        else ⟨.error ERROR_MESSAGES.SERVICE_UNAVAILABLE, attempt + 1, waits⟩
      else if isLastAttempt then
        ⟨.error ERROR_MESSAGES.GENERIC_ERROR, attempt + 1, waits⟩
      else
        callGroqGo api retries remaining (attempt + 1)
          (waits ++ [retryDelays.getD attempt 0])

/-- `callGroqWithRetry(messages, temperature, maxTokens, retries = 3)`.
`messages`, `temperature` and `maxTokens` are forwarded to the provider
(and so are absorbed into the `api` stub); they do not influence the retry
control flow. -/
def callGroqWithRetry (api : Nat → GroqOutcome) (_messages : List ChatMessage)
    (_temperature : ℚ) (_maxTokens : Nat) (retries : Nat) : RetryResult :=
  callGroqGo api retries retries 0 []

/-! ### Response normalizer (`cleanResponse`)

The source's cleaning function is a pipeline of anchored case-insensitive
regex strippers, an optional quote unwrap, and two mode-specific
reformatting blocks.  Every regex used is simple enough for a direct
deterministic matcher; each definition records the regex it implements. -/

/-- Consume an optional leading `':'` (the `:?` part of the prefix
patterns). -/
def dropColonOpt : Chars → Chars
  | [] => []
  | c :: t => if c = ':' then t else c :: t

/-- Strip `/^LIT:?\s*/i` (first match only, anchored): if the text starts
with `lit` (case-insensitively), remove it together with an optional colon
and any following whitespace; otherwise return the text unchanged. -/
def stripPfxLit (lit : String) (cs : Chars) : Chars :=
  match dropLitCI lit.data cs with
  | some r => (dropColonOpt r).dropWhile isWs
  | none => cs

/-- Try a list of literal alternatives in order (the regex alternation
`(w1|w2|w3)`). -/
def dropAlts : List String → Chars → Option Chars
  | [], _ => none
  | a :: rest, cs =>
    match dropLitCI a.data cs with
    | some r => some r
    | none => dropAlts rest cs

/-- Strip `/^Here is an? (ALT1|ALT2|ALT3):?\s*/i`.  The optional `n` is
matched greedily; a skipped `n` would have to be followed by the literal
space of the pattern, which `n` is not, so greedy matching is exact. -/
def stripPfxHereIsAn (alts : List String) (cs : Chars) : Chars :=
  match dropLitCI ("here is a").data cs with
  | none => cs
  | some r =>
    let r1 := match r with
      | c :: t => if c.toLower = 'n' then t else c :: t
      | [] => []
    match r1 with
    | c :: t =>
      if c = ' ' then
        match dropAlts alts t with
        | some r2 => (dropColonOpt r2).dropWhile isWs
        | none => cs
      else cs
    | [] => cs

/-- Strip `/^The (ALT1|ALT2|ALT3)TAIL:?\s*/i` (e.g. `TAIL = " prompt"`). -/
def stripPfxTheAlt (alts : List String) (tailLit : String) (cs : Chars) : Chars :=
  match dropLitCI ("the ").data cs with
  | none => cs
  | some r =>
    match dropAlts alts r with
    | none => cs
    | some r2 =>
      match dropLitCI tailLit.data r2 with
      | some r3 => (dropColonOpt r3).dropWhile isWs
      | none => cs

/-- Consume `lit` case-insensitively from the END of `cs`; returns the
remaining front part on success. -/
def dropEndCI (lit : String) (cs : Chars) : Option Chars :=
  match dropLitCI lit.data.reverse cs.reverse with
  | some r => some r.reverse
  | none => none

/-- Remove a single optional occurrence of `c` from the end (the `!?` and
`\.?` parts of the suffix patterns). -/
def dropEndCharOpt (c : Char) (cs : Chars) : Chars :=
  match cs.reverse with
  | d :: t => if d = c then t.reverse else cs
  | [] => cs

/-- Strip `/\s*LIT$/i`: if the text ends with `lit` (case-insensitively),
remove it and all whitespace immediately before it (the leftmost match of
the end-anchored pattern takes the maximal whitespace run). -/
def stripSfxLit (lit : String) (cs : Chars) : Chars :=
  match dropEndCI lit cs with
  | some r => dropWsR r
  | none => cs

/-- Strip `/\s*LIT!?\.?$/i` (optional `!`, then optional `.`, then end). -/
def stripSfxLitBangDot (lit : String) (cs : Chars) : Chars :=
  let c1 := dropEndCharOpt '.' cs
  let c2 := dropEndCharOpt '!' c1
  match dropEndCI lit c2 with
  | some r => dropWsR r
  | none => cs

/-- Strip `/\s*LIT\.?$/i` (optional `.`, then end). -/
def stripSfxLitDot (lit : String) (cs : Chars) : Chars :=
  let c1 := dropEndCharOpt '.' cs
  match dropEndCI lit c1 with
  | some r => dropWsR r
  | none => cs

/-- `headIs c cs`: the list starts with character `c`. -/
def headIs (c : Char) (cs : Chars) : Bool := cs.head? = some c

/-- `lastIs c cs`: the list ends with character `c`. -/
def lastIs (c : Char) (cs : Chars) : Bool := cs.getLast? = some c

/-- The quote-unwrap step:
`if ((cleaned.startsWith('"') && cleaned.endsWith('"')) || (startsWith("'") && endsWith("'"))) cleaned = cleaned.slice(1, -1).trim()`.
`slice(1, -1)` is "drop the first and the last character" (empty when the
text has fewer than two characters). -/
def unwrapQuotes (cs : Chars) : Chars :=
  if (headIs '"' cs && lastIs '"' cs) || (headIs apoC cs && lastIs apoC cs) then
    trimC ((cs.drop 1).dropLast)
  else cs

/-- The condition as the specification words it: the entire text is
wrapped in a single matching pair of quote characters, i.e. it has at
least two characters and its first and last character are the same quote
character.  (Stated from the specification for comparison with the
source's `unwrapQuotes` condition, which does not require two
characters.) -/
def wrappedInMatchingQuotePair (cs : Chars) : Bool :=
  decide (2 ≤ cs.length) &&
    ((headIs '"' cs && lastIs '"' cs) || (headIs apoC cs && lastIs apoC cs))

/-! #### Framework-mode structural reconstruction -/

inductive FrameworkLabel where
  | role
  | context
  | task
  | format
  | rules
  | examples
deriving DecidableEq

def labelStr : FrameworkLabel → String
  | .role => "Role"
  | .context => "Context"
  | .task => "Task"
  | .format => "Format"
  | .rules => "Rules"
  | .examples => "Examples"

/-- The label together with its colon, as the scanner matches it. -/
def labelChars (l : FrameworkLabel) : Chars := (labelStr l).data ++ [':']

/-- Alternation order of `/^(Role|Context|Task|Format|Rules|Examples):/`. -/
def frameworkLabels : List FrameworkLabel :=
  [.role, .context, .task, .format, .rules, .examples]

/-- `trimmedLine.match(/^(Role|Context|Task|Format|Rules|Examples):/)`:
the first label (in alternation order) whose `Label:` text is a prefix of
the line.  (No two labels can match the same line: the label texts are
pairwise non-prefixes of each other.) -/
def matchLabel (cs : Chars) : Option FrameworkLabel :=
  frameworkLabels.find? (fun l => (labelChars l).isPrefixOf cs)

/-- The source's framework line scanner (the `for` loop over `lines`),
translated branch for branch.  `found` is `foundComponents` (most recently
added first), `cur` is `currentComponent` (`none` for `''`), `acc` is
`frameworkLines`.  A `break` returns the accumulator as is. -/
def scanGo (found : List FrameworkLabel) (cur : Option FrameworkLabel)
    (acc : List Chars) : List Chars → List Chars × List FrameworkLabel
  | [] => (acc, found)
  | line :: rest =>
    let t := trimC line
    match matchLabel t with
    | some l =>
      if l ∈ found then (acc, found)  -- duplicate label: stop here
      else
        let acc1 := if acc.isEmpty then acc ++ [line] else acc ++ [([] : Chars), line]
        scanGo (l :: found) (some l) acc1 rest
    | none =>
      if cur.isSome && (t.isEmpty || headIs ' ' t || headIs '-' t || headIs bulC t) then
        scanGo found cur (acc ++ [line]) rest
      else if cur.isSome && !t.isEmpty && (matchLabel t).isNone then
        scanGo found cur (acc ++ [line]) rest
      else if !t.isEmpty && (matchLabel t).isNone then
        -- non-framework content before any component: stop if Role was seen
        if FrameworkLabel.role ∈ found then (acc, found)
        else scanGo found cur acc rest
      else scanGo found cur acc rest

/-- `cleaned.search(/^Role:/m)` followed by
`if (firstRoleIndex > 0) cleaned = cleaned.substring(firstRoleIndex)`:
the multiline anchor only matches at line starts, so the substring cut is
exactly "drop all lines before the first line that starts with `Role:`"
(and no cut when there is none, or when it is the very first line). -/
def roleCutLines (lines : List Chars) : List Chars :=
  match lines.findIdx? (fun l => (labelChars .role).isPrefixOf l) with
  | none => lines
  | some 0 => lines
  | some (k + 1) => lines.drop (k + 1)

/-- `cleaned.replace(/\n\n\n+/g, '\n\n')`: every maximal run of `k ≥ 3`
newlines becomes exactly two; shorter runs are kept.  `k` counts the
pending newlines of the current run. -/
def collapseGo : Nat → Chars → Chars
  | k, [] => List.replicate (min k 2) '\n'
  | k, c :: rest =>
    if c = '\n' then collapseGo (k + 1) rest
    else List.replicate (min k 2) '\n' ++ c :: collapseGo 0 rest

def collapseNL (cs : Chars) : Chars := collapseGo 0 cs

/-- `cleaned.replace(/^(Role|Context|Task|Format|Rules|Examples):/gm, '\n$1:')`:
the multiline anchor matches exactly at line starts, so this inserts a
newline in front of every line that begins (unindented) with a label. -/
def gmLabelPass (cs : Chars) : Chars :=
  joinNL ((splitNL cs).map (fun l => if (matchLabel l).isSome then '\n' :: l else l))

/-- Generic single-pass global regex replacement scanner, shared by the
three `new RegExp(...)` replacement passes below.  `step c rest` inspects a
match attempt at the current position (current character `c`, remaining
input `rest`): `some (emit, cont)` means the position matches, the matched
text is replaced by `emit`, and scanning resumes at `cont` (a suffix of
`rest`, i.e. right after the matched text), exactly as a JS global replace
resumes after each match; `none` means no match, so the character is
copied.  Fuel is one unit per consumed character; the wrapper supplies
`cs.length`, which is always sufficient because every step continues
strictly inside `rest`.  (The fuel makes the recursion structural, hence
kernel-computable.) -/
def scanReplF (step : Char → Chars → Option (Chars × Chars)) : Nat → Chars → Chars
  | _, [] => []
  | 0, cs => cs
  | fuel + 1, c :: rest =>
    match step c rest with
    | some (emit, cont) => emit ++ scanReplF step fuel cont
    | none => c :: scanReplF step fuel rest

def scanRepl (step : Char → Chars → Option (Chars × Chars)) (cs : Chars) : Chars :=
  scanReplF step cs.length cs

/-- Match attempt of `new RegExp('(\\S)\\s*(LAB)', 'g')` at one position:
a non-whitespace character, then a whitespace run, then the label; the
replacement `'$1\n\n$2'` normalizes the gap to exactly one blank line.
(The greedy `\s*` is deterministic here: a shorter run would leave a
whitespace character where the label's first character is required.) -/
def gapStep (lab : Chars) (c : Char) (rest : Chars) : Option (Chars × Chars) :=
  if isWs c then none
  else
    let after := rest.dropWhile isWs
    if lab.isPrefixOf after then
      some (c :: '\n' :: '\n' :: lab, after.drop lab.length)
    else none

/-- One global pass of `(\S)\s*(LAB)` → `$1\n\n$2`. -/
def fixGapGo (lab : Chars) (cs : Chars) : Chars := scanRepl (gapStep lab) cs

/-- The labels the final spacing pass iterates over
(`for (let i = 1; i < components.length; i++)`, i.e. `Role` excluded). -/
def gapPassLabels : List FrameworkLabel := [.context, .task, .format, .rules, .examples]

/-- The whole framework-optimization block of `cleanResponse`. -/
def frameworkPass (cs : Chars) : Chars :=
  let lines := roleCutLines (splitNL cs)
  let fl := (scanGo [] none [] lines).1
  let cs1 := joinNL fl
  let cs2 := collapseGo 0 cs1
  let cs3 := gmLabelPass cs2
  let cs4 := cs3.dropWhile (· = '\n')  -- `replace(/^\n+/, '')` (anchored at text start)
  gapPassLabels.foldl (fun s l => fixGapGo (labelChars l) s) cs4

/-! #### Report-mode reformatting -/

/-- Match attempt of `new RegExp('([.!?])\\s*(SECTION[:\\s])', 'g')` at one
position: sentence-ending punctuation, a whitespace run, then the section
heading followed by a colon or a whitespace character; `'$1\n\n$2'` puts a
blank line between them.  `$2` includes the character after the heading. -/
def reportStep (sec : Chars) (c : Char) (rest : Chars) : Option (Chars × Chars) :=
  if c = '.' ∨ c = '!' ∨ c = '?' then
    let after := rest.dropWhile isWs
    if sec.isPrefixOf after then
      match (after.drop sec.length).head? with
      | some d =>
        if d = ':' ∨ isWs d then
          some (c :: '\n' :: '\n' :: (sec ++ [d]), after.drop (sec.length + 1))
        else none
      | none => none
    else none
  else none

/-- One global pass of `([.!?])\s*(SECTION[:\s])` → `$1\n\n$2`. -/
def fixReportGo (sec : Chars) (cs : Chars) : Chars := scanRepl (reportStep sec) cs

/-- Match attempt of `/([.!?])\s*[-•]\s*/g` → `'$1\n- '`: sentence-ending
punctuation, a whitespace run, a dash or bullet, and the trailing
whitespace run are replaced by the punctuation plus `"\n- "`. -/
def bulletStep (c : Char) (rest : Chars) : Option (Chars × Chars) :=
  if c = '.' ∨ c = '!' ∨ c = '?' then
    match (rest.dropWhile isWs).head? with
    | some d =>
      if d = '-' ∨ d = bulC then
        some ([c, '\n', '-', ' '], ((rest.dropWhile isWs).drop 1).dropWhile isWs)
      else none
    | none => none
  else none

def bulletGo (cs : Chars) : Chars := scanRepl bulletStep cs

/-- The report-writing block: a `$1\n\n$2` pass per section heading, the
bullet pass, then the blank-line collapse. -/
def reportPass (sections : List String) (cs : Chars) : Chars :=
  let cs1 := sections.foldl (fun s sec => fixReportGo sec.data s) cs
  let cs2 := bulletGo cs1
  collapseGo 0 cs2

/-! #### The two endpoints' pattern catalogues and `cleanResponse` -/

/-- The rewrite endpoint's `prefixPatterns`, applied in order.  (All
literals are written lowercase: the matcher compares case-insensitively.) -/
def stripPfxesRewrite (cs : Chars) : Chars :=
  let c1 := stripPfxLit "here is the rewritten prompt" cs
  let c2 := stripPfxLit "the rewritten prompt is" c1
  let c3 := stripPfxLit "rewritten prompt" c2
  let c4 := stripPfxLit ("here" ++ apoS ++ "s the rewritten prompt") c3
  let c5 := stripPfxLit ("here" ++ apoS ++ "s a rewritten version") c4
  let c6 := stripPfxLit "rewritten version" c5
  let c7 := stripPfxHereIsAn ["improved", "optimized", "rewritten"] c6
  stripPfxTheAlt ["improved", "optimized", "rewritten"] " prompt" c7

/-- The rewrite endpoint's `suffixPatterns`, applied in order. -/
def stripSfxesRewrite (cs : Chars) : Chars :=
  let c1 := stripSfxLit "this rewritten prompt..." cs
  let c2 := stripSfxLitBangDot "i hope this helps" c1
  stripSfxLitDot "let me know if you need any adjustments" c2

/-- The self-improve endpoint's `prefixPatterns`. -/
def stripPfxesSelfImprove (cs : Chars) : Chars :=
  let c1 := stripPfxLit "here is the improved version" cs
  let c2 := stripPfxLit "the improved version is" c1
  let c3 := stripPfxLit "improved version" c2
  let c4 := stripPfxLit ("here" ++ apoS ++ "s the improved version") c3
  let c5 := stripPfxLit ("here" ++ apoS ++ "s an improved version") c4
  let c6 := stripPfxLit "enhanced version" c5
  let c7 := stripPfxHereIsAn ["enhanced", "improved", "optimized"] c6
  stripPfxTheAlt ["enhanced", "improved", "optimized"] " version" c7

/-- The self-improve endpoint's `suffixPatterns`. -/
def stripSfxesSelfImprove (cs : Chars) : Chars :=
  let c1 := stripSfxLit "this improved version..." cs
  let c2 := stripSfxLitBangDot "i hope this enhanced version helps" c1
  stripSfxLitDot "let me know if you need further improvements" c2

/-- The rewrite endpoint's `reportSections` catalogue. -/
def reportSectionsRewrite : List String :=
  ["Executive Summary", "Methodology", "Background", "Analysis", "Findings",
   "Recommendations", "Conclusion", "Appendices", "References", "Data Sources",
   "Research Approach", "Target Audience", "Deliverables", "Timeline",
   "Success Metrics"]

/-- The self-improve endpoint's `reportSections` catalogue (a superset). -/
def reportSectionsSelfImprove : List String :=
  reportSectionsRewrite ++
    ["Quality Assurance", "Stakeholder Communication", "Risk Assessment",
     "Implementation", "Follow-up"]

/-- Character-level body shared by the two `cleanResponse` functions; the
pattern catalogues and the report-section list are the only differences
between them. -/
def cleanChars (pfx sfx : Chars → Chars) (sections : List String)
    (resp : Chars) (mode : String) : Chars :=
  let cleaned := trimC resp
  let cleaned := pfx cleaned
  let cleaned := sfx cleaned
  let cleaned := unwrapQuotes cleaned
  let cleaned := if mode = "framework-optimization" then frameworkPass cleaned else cleaned
  let cleaned := if mode = "report-writing" then reportPass sections cleaned else cleaned
  trimC cleaned

/-- `cleanResponse` of the rewrite endpoint. -/
def cleanResponse (response : String) (mode : String) : String :=
  String.mk (cleanChars stripPfxesRewrite stripSfxesRewrite reportSectionsRewrite
    response.data mode)

/-- `cleanResponse` of the self-improve endpoint. -/
def cleanResponseSelfImprove (response : String) (mode : String) : String :=
  String.mk (cleanChars stripPfxesSelfImprove stripSfxesSelfImprove
    reportSectionsSelfImprove response.data mode)

/-! ### Mode instruction registry (rewrite endpoint) -/

def SYS_RW_questionResearch : String :=
  "You are a prompt rewriting specialist. Take the user" ++ apoS ++
    "s input and rewrite it as an optimized research prompt. Focus on:\n- Adding research methodology requirements\n- Including source verification requests  \n- Structuring for evidence-based analysis\n- Keeping the original topic/intent intact\n\nCRITICAL: Rewrite their specific prompt, don" ++ apoS ++
    "t generate generic templates. Keep under 200 words.\nDo not include prefixes like " ++ apoS ++
    "Here is..." ++ apoS ++
    " or " ++ apoS ++
    "The rewritten prompt is..." ++ apoS ++
    ". Output only the rewritten prompt."

def SYS_RW_reportWriting : String :=
  "You are a Professional Business Report Writing Specialist with expertise in creating comprehensive, structured documents that meet enterprise standards. Your task is to transform user prompts into detailed, professional report writing instructions.\n\nTransform the user" ++ apoS ++
    "s input into a comprehensive report writing prompt that includes:\n\nSTRUCTURE REQUIREMENTS:\n- Executive Summary specifications (key findings, recommendations, scope)\n- Methodology section requirements (research approach, data sources, analysis methods)\n- Main content organization (logical flow, section headers, subsections)\n- Conclusion and recommendations format\n- Appendices and supporting materials\n\nPROFESSIONAL STANDARDS:\n- Specify target audience and stakeholder considerations\n- Include data visualization requirements (charts, graphs, tables)\n- Define citation and reference standards\n- Establish tone and writing style guidelines\n- Set word count and formatting specifications\n\nQUALITY ASSURANCE:\n- Require fact-checking and source verification\n- Include review and approval processes\n- Specify deliverable formats and timelines\n- Define success metrics and evaluation criteria\n\nCRITICAL: Transform their specific topic into a detailed, professional report writing brief. Keep under 300 words but be comprehensive. Do not include prefixes like " ++ apoS ++
    "Here is..." ++ apoS ++
    " or " ++ apoS ++
    "The rewritten prompt is..." ++ apoS ++
    ". Output only the rewritten prompt."

def SYS_RW_codingAgent : String :=
  "You are a prompt rewriting specialist. Take the user" ++ apoS ++
    "s input and rewrite it as an optimized coding prompt. Focus on:\n- Adding technology stack specifications\n- Including testing and documentation requirements\n- Specifying best practices and error handling\n- Keeping the original functionality/intent intact\n\nCRITICAL: Rewrite their specific prompt, don" ++ apoS ++
    "t generate generic templates. Keep under 200 words.\nDo not include prefixes like " ++ apoS ++
    "Here is..." ++ apoS ++
    " or " ++ apoS ++
    "The rewritten prompt is..." ++ apoS ++
    ". Output only the rewritten prompt."

def SYS_RW_multiToolAgent : String :=
  "You are a prompt rewriting specialist. Take the user" ++ apoS ++
    "s input and rewrite it as an optimized multi-tool workflow prompt. Focus on:\n- Adding tool integration specifications\n- Including error handling strategies\n- Defining workflow orchestration steps\n- Keeping the original goal/intent intact\n\nCRITICAL: Rewrite their specific prompt, don" ++ apoS ++
    "t generate generic templates. Keep under 200 words.\nDo not include prefixes like " ++ apoS ++
    "Here is..." ++ apoS ++
    " or " ++ apoS ++
    "The rewritten prompt is..." ++ apoS ++
    ". Output only the rewritten prompt."

def SYS_RW_documentRewriting : String :=
  "You are a Professional Document Transformation Specialist. Your task is to directly transform the user" ++ apoS ++
    "s input content into polished, professional documents. You do NOT create prompts - you transform actual content.\n\nTransform the provided content by:\n- Converting informal language to professional tone\n- Improving structure and clarity with proper sequential order\n- Enhancing readability and flow\n- Maintaining original intent and key information\n- Following business communication standards\n- Correcting grammar and improving sentence structure\n\nOutput the transformed document directly. Do not create prompts or instructions about transformation."

def SYS_RW_frameworkOptimization : String :=
  "You are a Prompt Engineering Framework Specialist with expertise in 2025 RACE and CRISP methodologies. Your function is to transform existing prompts into optimized versions that maximize AI performance through structured framework application.\n\nTransform the user" ++ apoS ++
    "s input into a comprehensive 6-part framework structure. Each component must be detailed and specific to their request.\n\nCRITICAL FORMATTING REQUIREMENTS:\n- Start each component on a new line with the component name followed by a colon\n- Use double line breaks between each component for clear separation\n- Provide substantial content for each section (2-4 sentences minimum)\n- Maintain the exact order: Role, Context, Task, Format, Rules, Examples\n\nOUTPUT STRUCTURE (follow exactly):\n\nRole: [Define the AI" ++ apoS ++
    "s specific role, expertise, and capabilities relevant to the user" ++ apoS ++
    "s request]\n\nContext: [Provide detailed background, constraints, and situational factors]\n\nTask: [Specify the exact deliverable, objectives, and success criteria]\n\nFormat: [Define precise output structure, style, and presentation requirements]\n\nRules: [List specific guidelines, limitations, and quality standards]\n\nExamples: [Provide concrete examples or templates when helpful]\n\nTransform their specific request using this framework. Keep under 400 words total but ensure each section is comprehensive."

def SYS_RW_contentGeneration : String :=
  "You are a Professional Content Creator specializing in producing publication-ready materials. Your task is to create complete, engaging content based on the user" ++ apoS ++
    "s request.\n\nCreate comprehensive content that includes:\n- Compelling headlines and structure\n- Well-researched information and insights\n- Professional writing style appropriate for the medium\n- Engaging introduction and strong conclusion\n- Proper formatting and organization\n\nGenerate the final content directly. Do not create prompts or instructions about content creation."

def SYS_SI_questionResearch : String :=
  "You are a Research Analysis Specialist optimized for synthesizing information and answering complex questions. Your primary function is to analyze queries, conduct targeted research, and deliver evidence-based responses that reduce ambiguity by 80% or more.\n\nTake the provided output and create an improved version that enhances clarity, completeness, and effectiveness. Focus on better research methodology, source verification, and evidence-based analysis while maintaining the original topic.\n\nOutput only the improved version without explanatory text or critique."

def SYS_SI_reportWriting : String :=
  "You are a Senior Business Report Writing Specialist with 15+ years of experience in creating executive-level documents for Fortune 500 companies. Your expertise includes strategic analysis, data visualization, stakeholder communication, and regulatory compliance reporting.\n\nTake the provided report writing prompt and create a significantly enhanced version that includes:\n\nENHANCED STRUCTURE:\n- More detailed executive summary requirements with specific KPI metrics\n- Comprehensive methodology section with data collection protocols\n- Advanced analysis frameworks and evaluation criteria\n- Professional formatting standards and visual design specifications\n- Detailed appendices and supporting documentation requirements\n\nPROFESSIONAL EXCELLENCE:\n- Stakeholder-specific communication strategies\n- Risk assessment and mitigation planning\n- Compliance and regulatory considerations\n- Quality assurance and peer review processes\n- Distribution and presentation guidelines\n\nSTRATEGIC DEPTH:\n- Market context and competitive analysis requirements\n- Financial impact assessments and ROI calculations\n- Implementation roadmaps and timeline specifications\n- Success measurement and KPI tracking systems\n- Follow-up and monitoring protocols\n\nTransform the provided prompt into a comprehensive, enterprise-grade report writing brief that would meet the standards of top-tier consulting firms. Output only the improved version without explanatory text or critique."

def SYS_SI_codingAgent : String :=
  "You are a Senior Software Engineering Specialist with expertise in full-stack development, system architecture, and best practices implementation. Your function is to provide technical solutions that are production-ready, well-documented, and maintainable.\n\nTake the provided output and create an improved version that enhances clarity, completeness, and effectiveness. Focus on better technical specifications, testing requirements, and best practices while maintaining the original functionality.\n\nOutput only the improved version without explanatory text or critique."

def SYS_SI_multiToolAgent : String :=
  "You are an AI Agent Command Optimizer that refines and enhances direct executable instructions for AI agents managing complex multi-tool workflows. Your function is to take existing agent commands and make them more precise, efficient, and robust.\n\nTake the provided AI agent commands and create an improved version that enhances precision, error handling, and execution efficiency. Focus on clearer tool invocations, better coordination protocols, and more robust error handling while maintaining the direct command structure.\n\nEnsure the output remains in imperative command format suitable for AI agent execution. Use action verbs like \"Execute\", \"Initialize\", \"Coordinate\", \"Monitor\", \"Validate\".\n\nOutput only the improved agent commands without explanatory text or critique."

def SYS_SI_documentRewriting : String :=
  "You are a Professional Document Transformation Specialist. Your expertise lies in converting informal, unstructured communication into polished, professional documents. You specialize in restructuring emails, reports, memos, and business correspondence while preserving original intent and enhancing clarity through formal document standards.\n\nTake the provided content and create an improved version that enhances professionalism, clarity, and structure. Focus on better tone, organization, sequential order, and business communication standards while maintaining the original intent.\n\nOutput only the improved version without explanatory text or critique."

def SYS_SI_frameworkOptimization : String :=
  "You are a Master Prompt Engineering Framework Specialist with expertise in advanced 2025 RACE, CRISP, and Chain-of-Thought methodologies. Your function is to create optimized framework structures that maximize AI performance through precise constraint specification and measurable outcome definition.\n\nTake the provided framework-structured output and create a significantly enhanced version. Each component must be more detailed, specific, and actionable.\n\nENHANCEMENT REQUIREMENTS:\n- Role: More specific expertise areas, capabilities, and behavioral parameters\n- Context: Deeper background analysis, constraints, and environmental factors\n- Task: More precise objectives, deliverables, and success criteria with measurable outcomes\n- Format: Detailed output specifications, structure requirements, and presentation standards\n- Rules: Comprehensive guidelines, quality standards, and constraint definitions\n- Examples: More relevant, detailed examples with specific use cases\n\nFORMATTING REQUIREMENTS:\n- Each component must start on a new line with proper spacing\n- Use double line breaks between components for visual separation\n- Provide substantial, detailed content for each section (3-5 sentences minimum)\n- Maintain logical flow and coherence across all components\n\nStructure your enhanced output exactly as:\n\nRole: [enhanced content with specific expertise and capabilities]\n\nContext: [enhanced content with detailed background and constraints]\n\nTask: [enhanced content with precise objectives and success criteria]\n\nFormat: [enhanced content with detailed output specifications]\n\nRules: [enhanced content with comprehensive guidelines and standards]\n\nExamples: [enhanced content with specific, relevant examples]\n\nOutput only the improved framework structure without explanatory text or critique."

def SYS_SI_contentGeneration : String :=
  "You are a Master Content Creator with expertise in producing publication-ready materials across multiple formats and industries. Your specialization includes engaging storytelling, SEO optimization, and audience-specific communication strategies.\n\nTake the provided content and create an improved version that enhances engagement, clarity, and professional quality. Focus on better structure, more compelling narrative, improved readability, and stronger audience connection while maintaining the original message.\n\nOutput only the improved version without explanatory text or critique."

/-- `SYSTEM_INSTRUCTIONS[mode]` of the rewrite endpoint.  The handler only
performs this lookup after validating the mode, so the `""` default for
unknown keys is never observed. -/
def SYSTEM_INSTRUCTIONS (mode : String) : String :=
  if mode = "question-research" then SYS_RW_questionResearch
  else if mode = "report-writing" then SYS_RW_reportWriting
  else if mode = "coding-agent" then SYS_RW_codingAgent
  else if mode = "multi-tool-agent" then SYS_RW_multiToolAgent
  else if mode = "document-rewriting" then SYS_RW_documentRewriting
  else if mode = "framework-optimization" then SYS_RW_frameworkOptimization
  else if mode = "content-generation" then SYS_RW_contentGeneration
  else ""

/-- `Object.keys(SYSTEM_INSTRUCTIONS)` (both endpoints register the same
seven mode keys, in this order). -/
def VALID_MODES : List String :=
  ["question-research", "report-writing", "coding-agent", "multi-tool-agent",
   "document-rewriting", "framework-optimization", "content-generation"]

/-- `MODE_DESCRIPTIONS` (looked up but unused by the handler). -/
def MODE_DESCRIPTIONS (mode : String) : String :=
  if mode = "question-research" then "general LLM question-answering and research tasks"
  else if mode = "report-writing" then "structured document creation and professional report writing"
  else if mode = "coding-agent" then "software development and technical implementation tasks"
  else if mode = "multi-tool-agent" then "complex workflow orchestration and multi-tool integration"
  else if mode = "document-rewriting" then "professional document transformation and formalization"
  else if mode = "framework-optimization" then "RACE and CRISP framework optimization for prompts"
  else if mode = "content-generation" then "direct content creation and publication-ready deliverables"
  else ""

/-- `REWRITING_MODES` (declared by the source; not read by the handler). -/
def REWRITING_MODES : List String :=
  ["question-research", "report-writing", "coding-agent", "multi-tool-agent",
   "framework-optimization"]

/-- `getModeDisplayName` of the rewrite endpoint. -/
def getModeDisplayName (mode : String) : String :=
  if mode = "question-research" then "Question/Research Mode"
  else if mode = "report-writing" then "Report Writing Mode"
  else if mode = "coding-agent" then "Coding Agent Mode"
  else if mode = "multi-tool-agent" then "Multi-Tool Agent Mode"
  else if mode = "document-rewriting" then "Document Rewriting Mode"
  else if mode = "framework-optimization" then "Framework Optimization Mode"
  else if mode = "content-generation" then "Content Generation Mode"
  else mode

/-- `getModeDisplayName` of the self-improve endpoint (two extra entries). -/
def getModeDisplayNameSelfImprove (mode : String) : String :=
  if mode = "question-research" then "Question/Research Mode"
  else if mode = "report-writing" then "Report Writing Mode"
  else if mode = "coding-agent" then "Coding Agent Mode"
  else if mode = "multi-tool-agent" then "Multi-Tool Agent Mode"
  else if mode = "document-rewriting" then "Document Rewriting Mode"
  else if mode = "framework-optimization" then "Framework Optimization Mode"
  else if mode = "content-generation" then "Content Generation Mode"
  else if mode = "context-engineering" then "Context Engineering Mode"
  else if mode = "ultimate-mode" then "Ultimate Mode"
  else mode

/-- `SYSTEM_INSTRUCTIONS[mode]` of the self-improve endpoint. -/
def SYSTEM_INSTRUCTIONS_SELF_IMPROVE (mode : String) : String :=
  if mode = "question-research" then SYS_SI_questionResearch
  else if mode = "report-writing" then SYS_SI_reportWriting
  else if mode = "coding-agent" then SYS_SI_codingAgent
  else if mode = "multi-tool-agent" then SYS_SI_multiToolAgent
  else if mode = "document-rewriting" then SYS_SI_documentRewriting
  else if mode = "framework-optimization" then SYS_SI_frameworkOptimization
  else if mode = "content-generation" then SYS_SI_contentGeneration
  else ""

/-! ### Search augmenter (`performWebSearch`, `extractSearchTerms`) -/

/-- JS `String.prototype.toLowerCase` (faithful on the ASCII range the
heuristics use). -/
def toLowerStr (s : String) : String := String.mk (s.data.map Char.toLower)

/-- JS `hay.includes(needle)`. -/
def containsSub (hay needle : String) : Bool := hasSub needle.data hay.data

/-- Split on a single space, like JS `String.prototype.split(' ')`
(empty segments are kept). -/
def splitSpace : Chars → List Chars
  | [] => [[]]
  | c :: rest =>
    if c = ' ' then [] :: splitSpace rest
    else
      match splitSpace rest with
      | l :: ls => (c :: l) :: ls
      | [] => [[c]]

/-- `\s+`: at least one whitespace character, consumed greedily. -/
def wsPlus : Chars → Option Chars
  | [] => none
  | c :: rest => if isWs c then some (rest.dropWhile isWs) else none

/-- The `(blog|article)\s+about\s+` tail of the blog-topic regex. -/
def blogArticleAbout (cs : Chars) : Option Chars :=
  match dropAlts ["blog", "article"] cs with
  | none => none
  | some r =>
    match wsPlus r with
    | none => none
    | some r2 =>
      match dropLitCI ("about").data r2 with
      | none => none
      | some r3 => wsPlus r3

/-- Match of `/write\s+(a\s+)?(blog|article)\s+about\s+/i` anchored at the
current position; returns the remainder after the match.  The optional
group is tried greedily first and skipped on failure (the only
backtracking the pattern admits). -/
def matchBlogAt (cs : Chars) : Option Chars :=
  match dropLitCI ("write").data cs with
  | none => none
  | some r =>
    match wsPlus r with
    | none => none
    | some r2 =>
      match (match dropLitCI ("a").data r2 with
             | some ra =>
               match wsPlus ra with
               | some rb => blogArticleAbout rb
               | none => none
             | none => none) with
      | some r3 => some r3
      | none => blogArticleAbout r2

/-- `prompt.replace(/write\s+(a\s+)?(blog|article)\s+about\s+/i, '')`:
remove the first (leftmost) match, if any. -/
def replaceBlogOnce : Chars → Chars
  | [] => []
  | c :: rest =>
    match matchBlogAt (c :: rest) with
    | some r => r
    | none => c :: replaceBlogOnce rest

/-- `extractSearchTerms`: keyword heuristics over the lowercased prompt. -/
def extractSearchTerms (userPrompt : String) : Option String :=
  let prompt := toLowerStr userPrompt
  if containsSub prompt "ai" || containsSub prompt "artificial intelligence" then
    some "latest AI developments 2025 artificial intelligence trends"
  else if containsSub prompt "blog" || containsSub prompt "article" then
    let topic := String.mk (trimC (replaceBlogOnce prompt.data))
    some (topic ++ " latest news 2025 current developments")
  else if containsSub prompt "technology" || containsSub prompt "tech" then
    some "latest technology trends 2025 tech developments"
  else if containsSub prompt "business" || containsSub prompt "marketing" then
    some "business trends 2025 marketing strategies"
  else if containsSub prompt "health" || containsSub prompt "medical" then
    some "health trends 2025 medical developments"
  else
    let words := ((splitSpace prompt.data).map String.mk).filter (fun w => 3 < w.length)
    if !words.isEmpty then
      some (String.intercalate " " (words.take 3) ++ " 2025 latest developments")
    else none

/-- One organic result as returned by the search provider (all fields
optional, as in the source's `SearchResult` interface). -/
structure SearchResultJS where
  title : Option String
  snippet : Option String
  link : Option String

/-- The external search transport: the `axios.get` call either throws
(any transport error or timeout) or returns a list of organic results. -/
inductive SearchTransport where
  | throws
  | ok (organicResults : List SearchResultJS)

structure WebSearchResult where
  data : String
  sources : List String
deriving DecidableEq

/-- The process environment and the two outbound services: the configured
credentials, the search transport, and the completion endpoint as a
function from attempt index to outcome. -/
structure Env where
  groqApiKey : Option String
  serpApiKey : Option String
  search : SearchTransport
  groq : Nat → GroqOutcome

/-- `performWebSearch`, paired with a flag recording whether an outbound
search HTTP request was actually issued (false when the credential is
missing or no query could be derived).  The `try`/`catch` around the
transport call maps `throws` to the empty result. -/
def performWebSearch (env : Env) (userPrompt : String) : WebSearchResult × Bool :=
  -- `if (!process.env.SERPAPI_API_KEY)` (absent or empty string are falsy)
  if env.serpApiKey = none ∨ env.serpApiKey = some "" then (⟨"", []⟩, false)
  else
    match extractSearchTerms userPrompt with
    | none => (⟨"", []⟩, false)
    | some _searchTerms =>
      match env.search with
      | .throws => (⟨"", []⟩, true)  -- caught: log and return the empty result
      | .ok results =>
        if results.isEmpty then (⟨"", []⟩, true)
        else
          let searchData := (results.map (fun r =>
              (r.title.getD "", r.snippet.getD "", r.link.getD ""))).filter
              (fun x => (x.1 != "") && (x.2.1 != ""))
          let data := String.intercalate "\n\n"
            (searchData.map (fun x => x.1 ++ ": " ++ x.2.1))
          let sources := searchData.map (fun x => x.2.2)
          (⟨data, sources⟩, true)

/-! ### The rewrite handler (`POST` of `/api/rewrite`) -/

/-- Parsed JSON body of a rewrite request.  `userPrompt = none` models a
missing or non-string field (both fail the same truthiness/type check);
`mode = none` models an absent field, for which the destructuring default
`'question-research'` applies. -/
structure RewriteBody where
  userPrompt : Option String
  mode : Option String
  enableWebAccess : Bool

/-- Trace of the outbound network activity of one handler run: whether a
search HTTP request was issued, how many completion attempts were made,
and which backoff delays were slept. -/
structure CallTrace where
  searchCalled : Bool
  groqAttempts : Nat
  groqWaits : List Nat
deriving DecidableEq

def noCalls : CallTrace := ⟨false, 0, []⟩

/-- The JSON value returned by the rewrite handler: an error status with
message, or the success payload. -/
inductive RewriteResult where
  | error (status : Nat) (message : String)
  | success (rewrittenPrompt : String) (mode : String) (modeName : String)
      (isContentGeneration : Bool) (webAccessUsed : Bool) (webSources : List String)
deriving DecidableEq

/-- The `userMessage` construction of the rewrite handler (the
mode-family `if`/`else` chain). -/
def buildUserMessage (mode userPrompt webData : String) (webAccessUsed : Bool) : String :=
  if mode = "content-generation" then
    if webAccessUsed then
      "Use this current information to enhance your content: " ++ webData ++
        "\n\nGenerate complete, publication-ready content for: " ++ userPrompt
    else "Generate complete, publication-ready content for: " ++ userPrompt
  else if mode = "document-rewriting" then
    if webAccessUsed then
      "Context for enhancement: " ++ webData ++
        "\n\nTransform this content into a professional document:\n\n" ++ userPrompt
    else "Transform this content into a professional document:\n\n" ++ userPrompt
  else
    if webAccessUsed then
      "Context: " ++ webData ++ "\n\nREWRITE THIS SPECIFIC PROMPT for " ++
        getModeDisplayName mode ++ ":\n\"" ++ userPrompt ++
        "\"\n\nApply your mode" ++ apoS ++
        "s specialization to THEIR specific request. Do not create generic examples."
    else
      "REWRITE THIS SPECIFIC PROMPT for " ++ getModeDisplayName mode ++ ":\n\"" ++
        userPrompt ++ "\"\n\nApply your mode" ++ apoS ++
        "s specialization to THEIR specific request. Do not create generic examples."

/-- The rewrite handler, step for step.  Thrown retry errors are caught by
the outer `catch`, which answers with the error message and status 500
(`Error` objects carry no `status` field). -/
def POSTrewrite (env : Env) (body : RewriteBody) : RewriteResult × CallTrace :=
  let mode := body.mode.getD "question-research"
  match body.userPrompt with
  | none => (.error 400 "userPrompt is required and must be a string", noCalls)
  | some userPrompt =>
    if userPrompt = "" then
      (.error 400 "userPrompt is required and must be a string", noCalls)
    else if ¬(VALID_MODES.contains mode) then
      (.error 400 ("Invalid mode. Valid modes are: " ++
        String.intercalate ", " VALID_MODES), noCalls)
    else if env.groqApiKey = none ∨ env.groqApiKey = some "" ∨
        env.groqApiKey = some "your-key-here" then
      (.error 500 ERROR_MESSAGES.INVALID_API_KEY, noCalls)
    else
      let systemInstructions := SYSTEM_INSTRUCTIONS mode
      let doSearch := body.enableWebAccess || (mode == "content-generation") ||
        (mode == "document-rewriting")
      let searchOut := if doSearch then performWebSearch env userPrompt
        else (⟨"", []⟩, false)
      let webResult := searchOut.1
      -- `if (webResult.data && webResult.sources.length > 0)`
      let webAccessUsed := (webResult.data != "") && !webResult.sources.isEmpty
      let webData := if webAccessUsed then webResult.data else ""
      let webSources := if webAccessUsed then webResult.sources else []
      let userMessage := buildUserMessage mode userPrompt webData webAccessUsed
      if ¬(validateTokenLimits systemInstructions userMessage webData) then
        (.error 413 ERROR_MESSAGES.PAYLOAD_TOO_LARGE, ⟨searchOut.2, 0, []⟩)
      else
        let messages : List ChatMessage :=
          [⟨"system", systemInstructions⟩, ⟨"user", userMessage⟩]
        let temperature : ℚ :=
          if (mode == "content-generation") || (mode == "document-rewriting")
          then 8/10 else 4/10
        let maxTokens : Nat :=
          if (mode == "content-generation") || (mode == "document-rewriting")
          then 3000 else 500
        let retry := callGroqWithRetry env.groq messages temperature maxTokens 3
        match retry.outcome with
        | .error msg => (.error 500 msg, ⟨searchOut.2, retry.attempts, retry.waits⟩)
        | .ok content =>
          -- `let rewrittenPrompt = completion.choices[0]?.message?.content;
          --  if (!rewrittenPrompt) ...` (absent and empty are both falsy)
          let rewrittenPrompt := content.getD ""
          if rewrittenPrompt = "" then
            (.error 500 ERROR_MESSAGES.GENERIC_ERROR,
              ⟨searchOut.2, retry.attempts, retry.waits⟩)
          else
            (.success (cleanResponse rewrittenPrompt mode) mode
              (getModeDisplayName mode)
              ((mode == "content-generation") || (mode == "document-rewriting"))
              webAccessUsed webSources,
              ⟨searchOut.2, retry.attempts, retry.waits⟩)

/-! ### The self-improve handler (`POST` of `/api/self-improve`) -/

structure SelfImproveBody where
  currentOutput : Option String
  mode : Option String

inductive SelfImproveResult where
  | error (status : Nat) (message : String)
  | success (improvedOutput : String) (mode : String) (modeName : String)
deriving DecidableEq

/-- The self-improve refinement prompt wrapped around the current output. -/
def refinementPromptFor (currentOutput : String) : String :=
  "Improve this output following your mode instructions. Enhance clarity, completeness, and effectiveness while maintaining the original intent.\n\nCurrent Output:\n" ++
    currentOutput ++ "\n\nProvide only the improved version."

/-- The self-improve handler (no search augmentation; `validateTokenLimits`
is called without a web component, i.e. with its `''` default). -/
def POSTselfImprove (env : Env) (body : SelfImproveBody) :
    SelfImproveResult × CallTrace :=
  match body.currentOutput with
  | none => (.error 400 "currentOutput is required and must be a string", noCalls)
  | some currentOutput =>
    if currentOutput = "" then
      (.error 400 "currentOutput is required and must be a string", noCalls)
    else
      -- `if (!mode || !VALID_MODES.includes(mode))`
      match body.mode with
      | none => (.error 400 ("mode is required and must be one of: " ++
          String.intercalate ", " VALID_MODES), noCalls)
      | some mode =>
        if mode = "" ∨ ¬(VALID_MODES.contains mode) then
          (.error 400 ("mode is required and must be one of: " ++
            String.intercalate ", " VALID_MODES), noCalls)
        else if env.groqApiKey = none ∨ env.groqApiKey = some "" ∨
            env.groqApiKey = some "your-key-here" then
          (.error 500 ERROR_MESSAGES.INVALID_API_KEY, noCalls)
        else
          let systemInstructions := SYSTEM_INSTRUCTIONS_SELF_IMPROVE mode
          let refinementPrompt := refinementPromptFor currentOutput
          if ¬(validateTokenLimits systemInstructions refinementPrompt "") then
            (.error 413 ERROR_MESSAGES.PAYLOAD_TOO_LARGE, noCalls)
          else
            let messages : List ChatMessage :=
              [⟨"system", systemInstructions⟩, ⟨"user", refinementPrompt⟩]
            let retry := callGroqWithRetry env.groq messages (7/10) 2000 3
            match retry.outcome with
            | .error msg => (.error 500 msg, ⟨false, retry.attempts, retry.waits⟩)
            | .ok content =>
              let improvedOutput := content.getD ""
              if improvedOutput = "" then
                (.error 500 ERROR_MESSAGES.GENERIC_ERROR,
                  ⟨false, retry.attempts, retry.waits⟩)
              else
                (.success (cleanResponseSelfImprove improvedOutput mode) mode
                  (getModeDisplayNameSelfImprove mode),
                  ⟨false, retry.attempts, retry.waits⟩)

/-! ### Auxiliary definitions used by the theorems -/

/-- A completion failure that the retry loop never treats as terminal on a
non-final attempt: any thrown error whose status is not 413/401/403 (rate
limits, timeouts, 5xx and unclassified errors are all retried). -/
def RetryableFailure (o : GroqOutcome) : Prop :=
  ∃ s t, o = .failure s t ∧ s ≠ some 413 ∧ s ≠ some 401 ∧ s ≠ some 403

/-- The `GROQ_API_KEY` configuration check of both handlers passes. -/
def groqKeyOk (env : Env) : Prop :=
  env.groqApiKey ≠ none ∧ env.groqApiKey ≠ some "" ∧
    env.groqApiKey ≠ some "your-key-here"

/-- The handler's effective mode (destructuring default applied). -/
def rewriteMode (body : RewriteBody) : String := body.mode.getD "question-research"

/-- The handler's search condition (`enableWebAccess || content-generation
|| document-rewriting`). -/
def rewriteDoSearch (body : RewriteBody) : Bool :=
  body.enableWebAccess || (rewriteMode body == "content-generation") ||
    (rewriteMode body == "document-rewriting")

/-- The handler's search stage value. -/
def rewriteSearchOut (env : Env) (body : RewriteBody) (p : String) :
    WebSearchResult × Bool :=
  if rewriteDoSearch body then performWebSearch env p else (⟨"", []⟩, false)

/-- The handler's `webAccessUsed` flag. -/
def rewriteWebUsed (env : Env) (body : RewriteBody) (p : String) : Bool :=
  ((rewriteSearchOut env body p).1.data != "") &&
    !(rewriteSearchOut env body p).1.sources.isEmpty

/-- The handler's `webData` value. -/
def rewriteWebData (env : Env) (body : RewriteBody) (p : String) : String :=
  if rewriteWebUsed env body p then (rewriteSearchOut env body p).1.data else ""

/-- The handler's `userMessage` value. -/
def rewriteUserMessage (env : Env) (body : RewriteBody) (p : String) : String :=
  buildUserMessage (rewriteMode body) p (rewriteWebData env body p)
    (rewriteWebUsed env body p)

/-- The handler's token-budget verdict. -/
def rewriteBudgetOk (env : Env) (body : RewriteBody) (p : String) : Bool :=
  validateTokenLimits (SYSTEM_INSTRUCTIONS (rewriteMode body))
    (rewriteUserMessage env body p) (rewriteWebData env body p)

/-- A 420000-character prompt, used to exercise the token-budget gate. -/
def bigPrompt : String := String.mk (List.replicate 420000 'a')

def envC1 : Env := ⟨some "k", none, .throws, fun _ => .success (some "X")⟩

def bodyC1 : RewriteBody := ⟨some bigPrompt, none, false⟩

/-- A 300000-character search snippet, used to exercise the double
counting of web data in the budget check. -/
def bigSnippet : String := String.mk (List.replicate 300000 'a')

def envC10 : Env :=
  ⟨some "k", some "s", .ok [⟨some "T", some bigSnippet, some "http://x"⟩],
    fun _ => .success (some "X")⟩

def bodyC10 : RewriteBody := ⟨some "ai", none, true⟩


/-- Number of lines (after the scanner's per-line trim) that begin with
`Label:`, used to state the scanner's one-section-per-label guarantee. -/
def countLabelLinesTrim (l : FrameworkLabel) (lines : List Chars) : Nat :=
  (lines.filter (fun line => (labelChars l).isPrefixOf (trimC line))).length

/-- Number of lines of a string that begin (unindented) with `Label:`. -/
def countLabelLineStarts (l : FrameworkLabel) (s : String) : Nat :=
  ((splitNL s.data).filter (fun line => (labelChars l).isPrefixOf line)).length


/-! #### Normal-form framework texts (for the idempotence analysis) -/

/-- One single-line framework section: its label and the text following
the label on the label line. -/
structure Sec where
  lab : FrameworkLabel
  rest : Chars

/-- The section label line. -/
def secLine (s : Sec) : Chars := labelChars s.lab ++ s.rest

/-- The lines of a section list: label lines separated by one blank line. -/
def secsLines : List Sec → List Chars
  | [] => []
  | s :: rest =>
    secLine s :: (match rest with
      | [] => []
      | _ :: _ => ([] : Chars) :: secsLines rest)

/-- The rendered normal-form text: sections separated by one blank line. -/
def renderSecs (secs : List Sec) : Chars := joinNL (secsLines secs)

/-- The line scanner output on such input: the blank separator line is
kept as part of the previous section and a fresh blank line is inserted
before each new label line, doubling the separators. -/
def secsScanLines : List Sec → List Chars
  | [] => []
  | s :: rest =>
    secLine s :: (match rest with
      | [] => []
      | _ :: _ => ([] : Chars) :: ([] : Chars) :: secsScanLines rest)

/-- The text between the line-break-insertion pass and the spacing
passes: label lines separated by three newlines until the following
section label has been processed by its spacing pass (`done`), two
afterwards. -/
def renderGap (done : List FrameworkLabel) : List Sec → Chars
  | [] => []
  | s :: rest =>
    secLine s ++ (match rest with
      | [] => []
      | s2 :: _ =>
        (if s2.lab ∈ done then ['\n', '\n'] else ['\n', '\n', '\n']) ++
          renderGap done rest)

/-- Per-section normal-form conditions: no newline inside the line, the
line ends in a non-whitespace character, and each spacing-pass label
occurs in the line exactly once for the section own label (at its
start) and never otherwise. -/
def secOkB (s : Sec) : Bool :=
  (s.rest.all (fun c => c != '\n')) &&
  !(isWs ((s.rest.getLast?).getD ':')) &&
  gapPassLabels.all (fun l =>
    countSub (labelChars l) (secLine s) ==
      (if s.lab == l then 1 else 0))

/-- Normal-form section lists: nonempty, starting with the role section,
pairwise distinct labels, per-section conditions, and a rendered text
that the trim, prefix, suffix and quote stages leave unchanged. -/
def normalFormB (secs : List Sec) : Bool :=
  match secs with
  | [] => false
  | s1 :: _ =>
    (s1.lab == FrameworkLabel.role) &&
    decide ((secs.map Sec.lab).Nodup) &&
    secs.all secOkB &&
    (trimC (renderSecs secs) == renderSecs secs) &&
    (stripPfxesRewrite (renderSecs secs) == renderSecs secs) &&
    (stripSfxesRewrite (renderSecs secs) == renderSecs secs) &&
    (unwrapQuotes (renderSecs secs) == renderSecs secs)

/-! ## Theorems -/

/-- C2: when every provider attempt fails with a rate-limit (status 429)
error, the completion invoker makes exactly 3 attempts, sleeps 2000 ms
after the first and 4000 ms after the second (the `[1s, 2s]` schedule
doubled), and surfaces the high-demand (`RATE_LIMIT`) error. -/
theorem C2_rate_limit_retry_exhaustion :
    ∀ (api : Nat → GroqOutcome) (messages : List ChatMessage) (temperature : ℚ)
      (maxTokens : Nat),
      (∀ i, ∃ t, api i = .failure (some 429) t) →
      callGroqWithRetry api messages temperature maxTokens 3 =
        ⟨.error ERROR_MESSAGES.RATE_LIMIT, 3, [2000, 4000]⟩ := by
  intro api _messages _temperature _maxTokens h
  obtain ⟨t0, h0⟩ := h 0
  obtain ⟨t1, h1⟩ := h 1
  obtain ⟨t2, h2⟩ := h 2
  simp [callGroqWithRetry, callGroqGo, h0, h1, h2, retryDelays]

/-- Witness for C2 at a concrete always-429 stub. -/
theorem C2_rate_limit_retry_exhaustion_witness :
    callGroqWithRetry (fun _ => .failure (some 429) false) [] 0 500 3 =
      ⟨.error ERROR_MESSAGES.RATE_LIMIT, 3, [2000, 4000]⟩ :=
  C2_rate_limit_retry_exhaustion _ [] 0 500 (fun _ => ⟨false, rfl⟩)

/-- One non-final retryable attempt: the loop sleeps one backoff delay and
moves to the next attempt. -/
theorem callGroqGo_retryable_step (api : Nat → GroqOutcome) (s : Option Nat) (t : Bool)
    (attempt remaining : Nat) (waits : List Nat)
    (hs413 : s ≠ some 413) (hs401 : s ≠ some 401) (hs403 : s ≠ some 403)
    (hlast : attempt ≠ 3 - 1)
    (happ : api attempt = .failure s t) :
    ∃ w, callGroqGo api 3 (remaining + 1) attempt waits =
      callGroqGo api 3 remaining (attempt + 1) (waits ++ [w]) := by
  by_cases h429 : s = some 429
  · exact ⟨retryDelays.getD attempt 0 * 2, by simp [callGroqGo, happ, h429, hlast]⟩
  · by_cases ht : t = true
    · exact ⟨retryDelays.getD attempt 0,
        by simp [callGroqGo, happ, h429, ht, hs413, hlast]⟩
    · by_cases h5 : 500 ≤ s.getD 0
      · exact ⟨retryDelays.getD attempt 0,
          by simp [callGroqGo, happ, h429, ht, hs413, hs401, hs403, h5, hlast]⟩
      · exact ⟨retryDelays.getD attempt 0,
          by simp [callGroqGo, happ, h429, ht, hs413, hs401, hs403, h5, hlast]⟩

/-- A 413 failure terminates the loop at once, whatever the attempt. -/
theorem callGroqGo_payload_step (api : Nat → GroqOutcome) (t : Bool)
    (attempt remaining : Nat) (waits : List Nat)
    (happ : api attempt = .failure (some 413) t) :
    callGroqGo api 3 (remaining + 1) attempt waits =
      ⟨.error ERROR_MESSAGES.PAYLOAD_TOO_LARGE, attempt + 1, waits⟩ := by
  simp [callGroqGo, happ]

/-- C6: a payload-too-large (413) provider failure is terminal: whatever
the attempt index it occurs at, the invoker surfaces the payload error
immediately, with that attempt being the last and with no backoff delay
slept after it (the slept delays are exactly the ones of the earlier
retried attempts). -/
theorem C6_payload_too_large_terminal :
    ∀ (api : Nat → GroqOutcome) (messages : List ChatMessage) (temperature : ℚ)
      (maxTokens : Nat) (j : Nat), j < 3 →
      (∀ i, i < j → RetryableFailure (api i)) →
      (∃ t, api j = .failure (some 413) t) →
      (callGroqWithRetry api messages temperature maxTokens 3).outcome =
          .error ERROR_MESSAGES.PAYLOAD_TOO_LARGE ∧
        (callGroqWithRetry api messages temperature maxTokens 3).attempts = j + 1 ∧
        (callGroqWithRetry api messages temperature maxTokens 3).waits.length = j := by
  intro api msgs temp maxT j hj hr h413
  obtain ⟨t413, h413⟩ := h413
  show (callGroqGo api 3 3 0 []).outcome = _ ∧ (callGroqGo api 3 3 0 []).attempts = _ ∧
    (callGroqGo api 3 3 0 []).waits.length = _
  interval_cases j
  · rw [callGroqGo_payload_step api t413 0 2 [] h413]
    exact ⟨rfl, rfl, rfl⟩
  · obtain ⟨s0, u0, hs0, ha, hb, hc⟩ := hr 0 (by omega)
    obtain ⟨w0, hw0⟩ := callGroqGo_retryable_step api s0 u0 0 2 [] ha hb hc (by omega) hs0
    have hw0a : callGroqGo api 3 3 0 [] = callGroqGo api 3 2 1 [w0] := hw0
    have hstop : callGroqGo api 3 2 1 [w0] =
        ⟨.error ERROR_MESSAGES.PAYLOAD_TOO_LARGE, 2, [w0]⟩ :=
      callGroqGo_payload_step api t413 1 1 [w0] h413
    rw [hw0a, hstop]
    exact ⟨rfl, rfl, rfl⟩
  · obtain ⟨s0, u0, hs0, ha0, hb0, hc0⟩ := hr 0 (by omega)
    obtain ⟨s1, u1, hs1, ha1, hb1, hc1⟩ := hr 1 (by omega)
    obtain ⟨w0, hw0⟩ := callGroqGo_retryable_step api s0 u0 0 2 [] ha0 hb0 hc0 (by omega) hs0
    obtain ⟨w1, hw1⟩ := callGroqGo_retryable_step api s1 u1 1 1 [w0] ha1 hb1 hc1 (by omega) hs1
    have hw0a : callGroqGo api 3 3 0 [] = callGroqGo api 3 2 1 [w0] := hw0
    have hw1a : callGroqGo api 3 2 1 [w0] = callGroqGo api 3 1 2 [w0, w1] := hw1
    have hstop : callGroqGo api 3 1 2 [w0, w1] =
        ⟨.error ERROR_MESSAGES.PAYLOAD_TOO_LARGE, 3, [w0, w1]⟩ :=
      callGroqGo_payload_step api t413 2 0 [w0, w1] h413
    rw [hw0a, hw1a, hstop]
    exact ⟨rfl, rfl, rfl⟩

/-- Witness for C6: a first-attempt 413 is surfaced with one attempt and no
delay. -/
theorem C6_payload_too_large_terminal_witness :
    (callGroqWithRetry (fun _ => .failure (some 413) false) [] 0 500 3).outcome =
        .error ERROR_MESSAGES.PAYLOAD_TOO_LARGE ∧
      (callGroqWithRetry (fun _ => .failure (some 413) false) [] 0 500 3).attempts = 1 ∧
      (callGroqWithRetry (fun _ => .failure (some 413) false) [] 0 500 3).waits.length = 0 :=
  C6_payload_too_large_terminal _ [] 0 500 0 (by decide)
    (fun i hi => absurd hi (by omega)) ⟨false, rfl⟩

/-- C7: a missing/non-string/empty text field, or a mode key that is not
in the endpoint's registry, is answered with status 400 and an error
message, and neither the search transport nor the completion endpoint is
invoked — on both endpoints. -/
theorem C7_invalid_input_no_network :
    (∀ (env : Env) (body : RewriteBody),
        body.userPrompt = none ∨ body.userPrompt = some "" →
        ∃ msg, POSTrewrite env body = (.error 400 msg, noCalls))
  ∧ (∀ (env : Env) (body : RewriteBody) (p : String),
        body.userPrompt = some p → p ≠ "" →
        VALID_MODES.contains (rewriteMode body) = false →
        ∃ msg, POSTrewrite env body = (.error 400 msg, noCalls))
  ∧ (∀ (env : Env) (body : SelfImproveBody),
        body.currentOutput = none ∨ body.currentOutput = some "" →
        ∃ msg, POSTselfImprove env body = (.error 400 msg, noCalls))
  ∧ (∀ (env : Env) (body : SelfImproveBody) (c : String),
        body.currentOutput = some c → c ≠ "" →
        (body.mode = none ∨ body.mode = some "" ∨
          ∀ m, body.mode = some m → VALID_MODES.contains m = false) →
        ∃ msg, POSTselfImprove env body = (.error 400 msg, noCalls)) := by
  refine ⟨?_, ?_, ?_, ?_⟩
  · intro env body h
    rcases h with h | h <;>
      exact ⟨"userPrompt is required and must be a string", by simp [POSTrewrite, h]⟩
  · intro env body p hp hne hmode
    have hmode2 : ¬(body.mode.getD "question-research" ∈ VALID_MODES) := by
      simpa [rewriteMode] using hmode
    exact ⟨"Invalid mode. Valid modes are: " ++ String.intercalate ", " VALID_MODES,
      by simp [POSTrewrite, hp, hne, hmode2]⟩
  · intro env body h
    rcases h with h | h <;>
      exact ⟨"currentOutput is required and must be a string", by simp [POSTselfImprove, h]⟩
  · intro env body c hc hne hmode
    rcases hmode with h | h | h
    · exact ⟨"mode is required and must be one of: " ++ String.intercalate ", " VALID_MODES,
        by simp [POSTselfImprove, hc, hne, h]⟩
    · exact ⟨"mode is required and must be one of: " ++ String.intercalate ", " VALID_MODES,
        by simp [POSTselfImprove, hc, hne, h]⟩
    · cases hm : body.mode with
      | none =>
        exact ⟨"mode is required and must be one of: " ++ String.intercalate ", " VALID_MODES,
          by simp [POSTselfImprove, hc, hne, hm]⟩
      | some m =>
        have hmode2 : ¬(m ∈ VALID_MODES) := by simpa using h m hm
        exact ⟨"mode is required and must be one of: " ++ String.intercalate ", " VALID_MODES,
          by simp [POSTselfImprove, hc, hne, hm, hmode2]⟩

/-- Witness for C7 at concrete invalid requests (empty prompt; unknown
mode; empty current output; unknown self-improve mode). -/
theorem C7_invalid_input_no_network_witness :
    (∃ msg, POSTrewrite ⟨some "k", none, .throws, fun _ => .failure none false⟩
        ⟨some "", none, false⟩ = (.error 400 msg, noCalls))
  ∧ (∃ msg, POSTrewrite ⟨some "k", none, .throws, fun _ => .failure none false⟩
        ⟨some "hello", some "no-such-mode", false⟩ = (.error 400 msg, noCalls))
  ∧ (∃ msg, POSTselfImprove ⟨some "k", none, .throws, fun _ => .failure none false⟩
        ⟨some "", some "question-research"⟩ = (.error 400 msg, noCalls))
  ∧ (∃ msg, POSTselfImprove ⟨some "k", none, .throws, fun _ => .failure none false⟩
        ⟨some "hello", some "no-such-mode"⟩ = (.error 400 msg, noCalls)) :=
  ⟨C7_invalid_input_no_network.1 _ _ (Or.inr rfl),
   C7_invalid_input_no_network.2.1 _ _ "hello" rfl (by decide) (by decide),
   C7_invalid_input_no_network.2.2.1 _ _ (Or.inr rfl),
   C7_invalid_input_no_network.2.2.2 _ _ "hello" rfl (by decide)
     (Or.inr (Or.inr (fun m hm => by cases hm; decide)))⟩

/-- C5: search-failure isolation.  When the search transport throws (or
times out — both modelled by `throws`) or the search credential is absent,
`performWebSearch` returns the empty result; and a rewrite request on
which everything else succeeds still succeeds, with `webAccessUsed =
false` and `webSources = []`. -/
theorem C5_search_failure_isolation :
    (∀ (env : Env) (p : String),
        env.search = .throws ∨ env.serpApiKey = none ∨ env.serpApiKey = some "" →
        (performWebSearch env p).1 = ⟨"", []⟩)
  ∧ (∀ (env : Env) (body : RewriteBody) (p c : String),
        body.userPrompt = some p → p ≠ "" →
        VALID_MODES.contains (rewriteMode body) = true →
        groqKeyOk env →
        (env.search = .throws ∨ env.serpApiKey = none ∨ env.serpApiKey = some "") →
        validateTokenLimits (SYSTEM_INSTRUCTIONS (rewriteMode body))
          (buildUserMessage (rewriteMode body) p "" false) "" = true →
        (callGroqGo env.groq 3 3 0 []).outcome = .ok (some c) → c ≠ "" →
        (POSTrewrite env body).1 =
          .success (cleanResponse c (rewriteMode body)) (rewriteMode body)
            (getModeDisplayName (rewriteMode body))
            ((rewriteMode body == "content-generation") ||
              (rewriteMode body == "document-rewriting"))
            false []) := by
  have part1 : ∀ (env : Env) (p : String),
      env.search = .throws ∨ env.serpApiKey = none ∨ env.serpApiKey = some "" →
      (performWebSearch env p).1 = ⟨"", []⟩ := by
    intro env p h
    unfold performWebSearch
    by_cases hk : env.serpApiKey = none ∨ env.serpApiKey = some ""
    · simp [hk]
    · have hs : env.search = .throws := by tauto
      simp only [if_neg hk]
      cases hterm : extractSearchTerms p <;> simp [hs]
  refine ⟨part1, ?_⟩
  intro env body p c hp hne hmode hkey hsearch hbudget hok hcne
  have hempty : ∀ q, (performWebSearch env q).1 = ⟨"", []⟩ := fun q => part1 env q hsearch
  have hmode2 : (body.mode.getD "question-research") ∈ VALID_MODES := by
    simpa [rewriteMode] using hmode
  obtain ⟨hk1, hk2, hk3⟩ := hkey
  simp only [POSTrewrite, hp]
  rw [if_neg hne, if_neg (by simpa using hmode2)]
  rw [if_neg (by tauto : ¬(env.groqApiKey = none ∨ env.groqApiKey = some "" ∨
    env.groqApiKey = some "your-key-here"))]
  simp only [rewriteMode] at hbudget ⊢
  by_cases hds : (body.enableWebAccess ||
      (body.mode.getD "question-research" == "content-generation") ||
      (body.mode.getD "question-research" == "document-rewriting")) = true
  · simp [hds, hempty p, callGroqWithRetry, hbudget, hok, hcne]
  · simp [hds, callGroqWithRetry, hbudget, hok, hcne]

set_option maxRecDepth 100000 in
/-- Witness for C5: a throwing search transport with an otherwise healthy
request still yields a successful rewrite without web data. -/
theorem C5_search_failure_isolation_witness :
    (performWebSearch ⟨some "k", some "s", .throws, fun _ => .success (some "Z")⟩ "hi").1 =
        ⟨"", []⟩ ∧
      (POSTrewrite ⟨some "k", some "s", .throws, fun _ => .success (some "Z")⟩
          ⟨some "hi", none, true⟩).1 =
        .success (cleanResponse "Z" "question-research") "question-research"
          (getModeDisplayName "question-research") false false [] :=
  ⟨C5_search_failure_isolation.1 _ "hi" (Or.inl rfl),
   C5_search_failure_isolation.2 _ _ "hi" "Z" rfl (by decide) (by decide)
     ⟨by decide, by decide, by decide⟩ (Or.inl rfl) (by decide) (by decide) (by decide)⟩

/-- C4 (amended): the handlers check the RAW reply for emptiness before
normalization: a missing or empty raw completion body is answered with the
terminal generic error (HTTP 500) and never as a success — on both
endpoints.  (The normalized string, by contrast, is not re-checked; see
the counterexample, where a nonempty raw reply normalizes to the empty
string and is returned in a success response.) -/
theorem C4_empty_raw_reply_terminal :
    (∀ (env : Env) (body : RewriteBody) (p : String) (content : Option String),
        body.userPrompt = some p → p ≠ "" →
        VALID_MODES.contains (rewriteMode body) = true →
        groqKeyOk env →
        rewriteBudgetOk env body p = true →
        (callGroqGo env.groq 3 3 0 []).outcome = .ok content →
        (content = none ∨ content = some "") →
        (POSTrewrite env body).1 = .error 500 ERROR_MESSAGES.GENERIC_ERROR)
  ∧ (∀ (env : Env) (body : SelfImproveBody) (c m : String) (content : Option String),
        body.currentOutput = some c → c ≠ "" →
        body.mode = some m → m ≠ "" → VALID_MODES.contains m = true →
        groqKeyOk env →
        validateTokenLimits (SYSTEM_INSTRUCTIONS_SELF_IMPROVE m)
          (refinementPromptFor c) "" = true →
        (callGroqGo env.groq 3 3 0 []).outcome = .ok content →
        (content = none ∨ content = some "") →
        (POSTselfImprove env body).1 = .error 500 ERROR_MESSAGES.GENERIC_ERROR) := by
  constructor
  · intro env body p content hup h1 hmode hkey hbudget hok hemp
    have hget : content.getD "" = "" := by rcases hemp with h | h <;> simp [h]
    have hmode2 : (body.mode.getD "question-research") ∈ VALID_MODES := by
      simpa [rewriteMode] using hmode
    obtain ⟨hk1, hk2, hk3⟩ := hkey
    have hbud2 := hbudget
    simp only [rewriteBudgetOk, rewriteUserMessage, rewriteWebData, rewriteWebUsed,
      rewriteSearchOut, rewriteDoSearch, rewriteMode] at hbud2
    simp only [POSTrewrite, hup]
    rw [if_neg h1, if_neg (by simpa using hmode2)]
    rw [if_neg (by tauto : ¬(env.groqApiKey = none ∨ env.groqApiKey = some "" ∨
      env.groqApiKey = some "your-key-here"))]
    by_cases h4 : (body.enableWebAccess ||
        (body.mode.getD "question-research" == "content-generation") ||
        (body.mode.getD "question-research" == "document-rewriting")) = true
    · simp only [h4, if_true] at hbud2 ⊢
      simp [callGroqWithRetry, hok, hget] at hbud2 ⊢
      simp [hbud2]
    · rw [if_neg h4] at hbud2 ⊢
      simp [callGroqWithRetry, hok, hget] at hbud2 ⊢
      simp [hbud2]
  · intro env body c m content hco h1 hm hm1 hmode hkey hbudget hok hemp
    have hget : content.getD "" = "" := by rcases hemp with h | h <;> simp [h]
    have hmode2 : m ∈ VALID_MODES := by simpa using hmode
    obtain ⟨hk1, hk2, hk3⟩ := hkey
    simp only [POSTselfImprove, hco, hm]
    rw [if_neg h1]
    rw [if_neg (by simp [hm1, hmode2] : ¬(m = "" ∨ ¬(VALID_MODES.contains m = true)))]
    rw [if_neg (by tauto : ¬(env.groqApiKey = none ∨ env.groqApiKey = some "" ∨
      env.groqApiKey = some "your-key-here"))]
    simp [callGroqWithRetry, hok, hget, hbudget]

set_option maxRecDepth 100000 in
/-- Witness for C4 at concrete requests whose stubbed completion returns
an empty body. -/
theorem C4_empty_raw_reply_terminal_witness :
    (POSTrewrite ⟨some "k", none, .throws, fun _ => .success (some "")⟩
        ⟨some "hi", none, false⟩).1 = .error 500 ERROR_MESSAGES.GENERIC_ERROR ∧
    (POSTselfImprove ⟨some "k", none, .throws, fun _ => .success none⟩
        ⟨some "hi", some "question-research"⟩).1 =
      .error 500 ERROR_MESSAGES.GENERIC_ERROR :=
  ⟨C4_empty_raw_reply_terminal.1 _ _ "hi" (some "") rfl (by decide) (by decide)
      ⟨by decide, by decide, by decide⟩ (by decide) (by decide) (Or.inr rfl),
   C4_empty_raw_reply_terminal.2 _ _ "hi" "question-research" none rfl (by decide)
      rfl (by decide) (by decide) ⟨by decide, by decide, by decide⟩ (by decide)
      (by decide) (Or.inl rfl)⟩

set_option maxRecDepth 100000 in
/-- Counterexample to C4 as stated: a nonempty raw reply (a single space)
normalizes to the empty string, which the rewrite handler returns inside a
200 success response instead of treating it as a terminal failure. -/
theorem C4_counterexample :
    cleanResponse " " "question-research" = "" ∧
    (POSTrewrite ⟨some "k", none, .throws, fun _ => .success (some " ")⟩
        ⟨some "hi", none, false⟩).1 =
      .success "" "question-research" "Question/Research Mode" false false [] := by
  constructor
  · decide
  · decide

/-- Unfolding lemma for the per-string token estimate (ratio 4). -/
theorem estimateTokenCount_eq3 (s : String) :
    estimateTokenCount s = (s.length + 3) / 4 := rfl

/-- Unfolding lemma for the summed token estimate. -/
theorem totalInputTokens_eq3 (s u w : String) : totalInputTokens s u w =
    estimateTokenCount s + estimateTokenCount u + estimateTokenCount w := rfl

/-- The budget comparison in the rational form used by the specification
(`total ≤ 0.8 * maxContextTokens`). -/
theorem validateTokenLimits_iff_rat (s u w : String) :
    validateTokenLimits s u w = true ↔
      ((totalInputTokens s u w : ℚ) ≤
        (8 / 10) * (MODEL_CONFIG.maxContextTokens : ℚ)) := by
  simp only [validateTokenLimits, decide_eq_true_eq, MODEL_CONFIG]
  push_cast
  constructor
  · intro h
    have hT : totalInputTokens s u w ≤ 104857 := by omega
    have hTq : (totalInputTokens s u w : ℚ) ≤ 104857 := by exact_mod_cast hT
    linarith
  · intro h
    by_contra hc
    have hT : 104858 ≤ totalInputTokens s u w := by omega
    have hTq : (104858 : ℚ) ≤ (totalInputTokens s u w : ℚ) := by exact_mod_cast hT
    linarith

/-- A rewrite request that passes the input checks but fails the budget
check is answered with 413 and zero completion attempts. -/
theorem rewrite_budget_false_413 (env : Env) (body : RewriteBody) (p : String)
    (hup : body.userPrompt = some p) (h1 : p ≠ "")
    (hmode : VALID_MODES.contains (rewriteMode body) = true)
    (hkey : groqKeyOk env)
    (hbudF : rewriteBudgetOk env body p = false) :
    POSTrewrite env body =
      (.error 413 ERROR_MESSAGES.PAYLOAD_TOO_LARGE,
        ⟨(rewriteSearchOut env body p).2, 0, []⟩) := by
  have hmode2 : (body.mode.getD "question-research") ∈ VALID_MODES := by
    simpa [rewriteMode] using hmode
  obtain ⟨hk1, hk2, hk3⟩ := hkey
  have hbud2 := hbudF
  simp only [rewriteBudgetOk, rewriteUserMessage, rewriteWebData, rewriteWebUsed,
    rewriteSearchOut, rewriteDoSearch, rewriteMode] at hbud2
  simp only [POSTrewrite, hup]
  rw [if_neg h1, if_neg (by simpa using hmode2)]
  rw [if_neg (by tauto : ¬(env.groqApiKey = none ∨ env.groqApiKey = some "" ∨
    env.groqApiKey = some "your-key-here"))]
  simp only [rewriteSearchOut, rewriteDoSearch, rewriteMode]
  by_cases h4 : (body.enableWebAccess ||
      (body.mode.getD "question-research" == "content-generation") ||
      (body.mode.getD "question-research" == "document-rewriting")) = true
  · simp only [h4, if_true] at hbud2 ⊢
    simp at hbud2 ⊢
    simp [hbud2]
  · rw [if_neg h4] at hbud2 ⊢
    simp at hbud2 ⊢
    simp [hbud2]

/-- C1: `validateTokenLimits` accepts exactly when the summed token
estimate is at most 80% of the context window; and a rewrite request
whose estimate total exceeds that bound is answered with a 413
payload-too-large error with zero completion attempts (the completion
call is never invoked). -/
theorem C1_token_budget_gate :
    (∀ s u w : String, validateTokenLimits s u w = true ↔
        ((totalInputTokens s u w : ℚ) ≤
          (8 / 10) * (MODEL_CONFIG.maxContextTokens : ℚ)))
  ∧ (∀ (env : Env) (body : RewriteBody) (p : String),
      body.userPrompt = some p → p ≠ "" →
      VALID_MODES.contains (rewriteMode body) = true →
      groqKeyOk env →
      ((8 / 10) * (MODEL_CONFIG.maxContextTokens : ℚ) <
        (totalInputTokens (SYSTEM_INSTRUCTIONS (rewriteMode body))
          (rewriteUserMessage env body p) (rewriteWebData env body p) : ℚ)) →
      rewriteBudgetOk env body p = false ∧
      POSTrewrite env body =
        (.error 413 ERROR_MESSAGES.PAYLOAD_TOO_LARGE,
          ⟨(rewriteSearchOut env body p).2, 0, []⟩)) := by
  refine ⟨validateTokenLimits_iff_rat, ?_⟩
  intro env body p hup h1 hmode hkey hineq
  have hbudF : rewriteBudgetOk env body p = false := by
    rw [Bool.eq_false_iff]
    intro h
    exact absurd ((validateTokenLimits_iff_rat _ _ _).mp h) (not_le.mpr hineq)
  exact ⟨hbudF, rewrite_budget_false_413 env body p hup h1 hmode hkey hbudF⟩

set_option maxRecDepth 100000 in
/-- Witness for C1: a 420000-character prompt overflows the budget and is
rejected with 413 and zero completion attempts. -/
theorem C1_token_budget_gate_witness :
    rewriteBudgetOk envC1 bodyC1 bigPrompt = false ∧
    POSTrewrite envC1 bodyC1 =
      (.error 413 ERROR_MESSAGES.PAYLOAD_TOO_LARGE,
        ⟨(rewriteSearchOut envC1 bodyC1 bigPrompt).2, 0, []⟩) := by
  have hbigLen : bigPrompt.length = 420000 := by
    rw [show bigPrompt.length = (List.replicate 420000 'a').length from rfl,
      List.length_replicate]
  have hmsgEq : rewriteUserMessage envC1 bodyC1 bigPrompt =
      "REWRITE THIS SPECIFIC PROMPT for " ++ getModeDisplayName "question-research" ++
        ":\n\"" ++ bigPrompt ++ "\"\n\nApply your mode" ++ apoS ++
        "s specialization to THEIR specific request. Do not create generic examples." := rfl
  have hmsgLen : (rewriteUserMessage envC1 bodyC1 bigPrompt).length = 420152 := by
    rw [hmsgEq]
    simp only [String.length_append, hbigLen,
      show ("REWRITE THIS SPECIFIC PROMPT for ").length = 33 from rfl,
      show (getModeDisplayName "question-research").length = 22 from rfl,
      show (":\n\"").length = 3 from rfl,
      show ("\"\n\nApply your mode").length = 18 from rfl,
      show apoS.length = 1 from rfl,
      show ("s specialization to THEIR specific request. Do not create generic examples.").length = 75 from rfl]
  have hbne : bigPrompt ≠ "" := by
    intro h
    have h2 := congrArg String.length h
    rw [hbigLen] at h2
    simp [String.length] at h2
  have hineq : (8 / 10) * (MODEL_CONFIG.maxContextTokens : ℚ) <
      (totalInputTokens (SYSTEM_INSTRUCTIONS (rewriteMode bodyC1))
        (rewriteUserMessage envC1 bodyC1 bigPrompt)
        (rewriteWebData envC1 bodyC1 bigPrompt) : ℚ) := by
    have hest : estimateTokenCount (rewriteUserMessage envC1 bodyC1 bigPrompt) =
        105038 := by
      rw [estimateTokenCount_eq3, hmsgLen]
    have hle : (105038 : Nat) ≤
        totalInputTokens (SYSTEM_INSTRUCTIONS (rewriteMode bodyC1))
          (rewriteUserMessage envC1 bodyC1 bigPrompt)
          (rewriteWebData envC1 bodyC1 bigPrompt) := by
      rw [totalInputTokens_eq3, ← hest]
      exact le_trans (Nat.le_add_left _ _) (Nat.le_add_right _ _)
    have hcast : (105038 : ℚ) ≤
        (totalInputTokens (SYSTEM_INSTRUCTIONS (rewriteMode bodyC1))
          (rewriteUserMessage envC1 bodyC1 bigPrompt)
          (rewriteWebData envC1 bodyC1 bigPrompt) : ℚ) := by
      exact_mod_cast hle
    rw [show MODEL_CONFIG.maxContextTokens = 131072 from rfl]
    have h8 : (8 / 10 : ℚ) * 131072 < 105038 := by norm_num
    linarith
  exact C1_token_budget_gate.2 envC1 bodyC1 bigPrompt rfl hbne (by decide)
    ⟨by decide, by decide, by decide⟩ hineq

set_option maxRecDepth 100000 in
/-- C10: with web augmentation in use the budget check counts the snippet
text twice (once inside the user message, once as the separate webData
argument); concretely a request whose honest total fits in the budget is
still rejected with 413. -/
theorem C10_web_data_double_counted :
    (∀ (env : Env) (body : RewriteBody) (p : String),
        rewriteWebUsed env body p = true →
        rewriteBudgetOk env body p =
          validateTokenLimits (SYSTEM_INSTRUCTIONS (rewriteMode body))
            (rewriteUserMessage env body p) (rewriteWebData env body p) ∧
        ∃ a b : String, rewriteUserMessage env body p =
          a ++ rewriteWebData env body p ++ b)
  ∧ (((estimateTokenCount (SYSTEM_INSTRUCTIONS (rewriteMode bodyC10)) +
        estimateTokenCount "ai" +
        estimateTokenCount (rewriteWebData envC10 bodyC10 "ai") : Nat) : ℚ) ≤
      (8 / 10) * (MODEL_CONFIG.maxContextTokens : ℚ) ∧
     rewriteBudgetOk envC10 bodyC10 "ai" = false ∧
     POSTrewrite envC10 bodyC10 =
       (.error 413 ERROR_MESSAGES.PAYLOAD_TOO_LARGE,
         ⟨(rewriteSearchOut envC10 bodyC10 "ai").2, 0, []⟩)) := by
  constructor
  · intro env body p hweb
    refine ⟨rfl, ?_⟩
    rw [show rewriteUserMessage env body p =
      buildUserMessage (rewriteMode body) p (rewriteWebData env body p)
        (rewriteWebUsed env body p) from rfl, hweb]
    by_cases hm1 : rewriteMode body = "content-generation"
    · rw [buildUserMessage, if_pos hm1]
      simp only [if_true]
      refine ⟨"Use this current information to enhance your content: ",
        "\n\nGenerate complete, publication-ready content for: " ++ p, ?_⟩
      simp only [String.append_assoc]
    · by_cases hm2 : rewriteMode body = "document-rewriting"
      · rw [buildUserMessage, if_neg hm1, if_pos hm2]
        simp only [if_true]
        refine ⟨"Context for enhancement: ",
          "\n\nTransform this content into a professional document:\n\n" ++ p, ?_⟩
        simp only [String.append_assoc]
      · rw [buildUserMessage, if_neg hm1, if_neg hm2]
        simp only [if_true]
        refine ⟨"Context: ",
          "\n\nREWRITE THIS SPECIFIC PROMPT for " ++
            getModeDisplayName (rewriteMode body) ++ ":\n\"" ++ p ++
            "\"\n\nApply your mode" ++ apoS ++
            "s specialization to THEIR specific request. Do not create generic examples.", ?_⟩
        simp only [String.append_assoc]
  · have hsnipLen : bigSnippet.length = 300000 := by
      rw [show bigSnippet.length = (List.replicate 300000 (Char.ofNat 97)).length from rfl,
        List.length_replicate]
    have hwdEq : rewriteWebData envC10 bodyC10 "ai" = "T" ++ ": " ++ bigSnippet := rfl
    have hwdLen : (rewriteWebData envC10 bodyC10 "ai").length = 300003 := by
      rw [hwdEq]
      simp only [String.length_append, hsnipLen,
        show ("T").length = 1 from rfl,
        show (": ").length = 2 from rfl]
    have hestWeb : estimateTokenCount (rewriteWebData envC10 bodyC10 "ai") = 75001 := by
      rw [estimateTokenCount_eq3, hwdLen]
    have hestSys : estimateTokenCount (SYSTEM_INSTRUCTIONS (rewriteMode bodyC10)) = 124 := by
      rw [show rewriteMode bodyC10 = "question-research" from rfl,
        estimateTokenCount_eq3,
        show (SYSTEM_INSTRUCTIONS "question-research").length = 496 from rfl]
    have hestP : estimateTokenCount "ai" = 1 := rfl
    have hmsgEq10 : rewriteUserMessage envC10 bodyC10 "ai" =
        "Context: " ++ rewriteWebData envC10 bodyC10 "ai" ++
          "\n\nREWRITE THIS SPECIFIC PROMPT for " ++
          getModeDisplayName "question-research" ++ ":\n\"" ++ "ai" ++
          "\"\n\nApply your mode" ++ apoS ++
          "s specialization to THEIR specific request. Do not create generic examples." := rfl
    have hmsgLen10 : (rewriteUserMessage envC10 bodyC10 "ai").length = 300168 := by
      rw [hmsgEq10]
      simp only [String.length_append, hwdLen,
        show ("Context: ").length = 9 from rfl,
        show ("\n\nREWRITE THIS SPECIFIC PROMPT for ").length = 35 from rfl,
        show (getModeDisplayName "question-research").length = 22 from rfl,
        show (":\n\"").length = 3 from rfl,
        show ("ai").length = 2 from rfl,
        show ("\"\n\nApply your mode").length = 18 from rfl,
        show apoS.length = 1 from rfl,
        show ("s specialization to THEIR specific request. Do not create generic examples.").length = 75 from rfl]
    have hestMsg : estimateTokenCount (rewriteUserMessage envC10 bodyC10 "ai") = 75042 := by
      rw [estimateTokenCount_eq3, hmsgLen10]
    have htot : totalInputTokens (SYSTEM_INSTRUCTIONS (rewriteMode bodyC10))
        (rewriteUserMessage envC10 bodyC10 "ai")
        (rewriteWebData envC10 bodyC10 "ai") = 150167 := by
      rw [totalInputTokens_eq3, hestSys, hestMsg, hestWeb]
    have hbudF10 : rewriteBudgetOk envC10 bodyC10 "ai" = false := by
      rw [Bool.eq_false_iff]
      intro h
      rw [show rewriteBudgetOk envC10 bodyC10 "ai" =
        validateTokenLimits (SYSTEM_INSTRUCTIONS (rewriteMode bodyC10))
          (rewriteUserMessage envC10 bodyC10 "ai")
          (rewriteWebData envC10 bodyC10 "ai") from rfl] at h
      have hq := (validateTokenLimits_iff_rat _ _ _).mp h
      rw [htot, show MODEL_CONFIG.maxContextTokens = 131072 from rfl] at hq
      norm_num at hq
    refine ⟨?_, hbudF10, ?_⟩
    · rw [hestSys, hestP, hestWeb,
        show MODEL_CONFIG.maxContextTokens = 131072 from rfl]
      norm_num
    · exact rewrite_budget_false_413 envC10 bodyC10 "ai" rfl (by decide)
        (by decide) ⟨by decide, by decide, by decide⟩ hbudF10

set_option maxRecDepth 100000 in
/-- Witness for C10: the universally quantified part applied to the
concrete big-snippet environment. -/
theorem C10_web_data_double_counted_witness :
    rewriteWebUsed envC10 bodyC10 "ai" = true ∧
    (rewriteBudgetOk envC10 bodyC10 "ai" =
      validateTokenLimits (SYSTEM_INSTRUCTIONS (rewriteMode bodyC10))
        (rewriteUserMessage envC10 bodyC10 "ai")
        (rewriteWebData envC10 bodyC10 "ai") ∧
     ∃ a b : String, rewriteUserMessage envC10 bodyC10 "ai" =
       a ++ rewriteWebData envC10 bodyC10 "ai" ++ b) :=
  ⟨rfl, C10_web_data_double_counted.1 envC10 bodyC10 "ai" rfl⟩

/-- Counterexample to C8 as stated: a single quote character starts and
ends with a quote without being wrapped in a matching pair, yet the
unwrap step still fires and empties it; and on a genuinely wrapped text
whose inner part has surrounding whitespace, more than the outer pair is
removed (the inner text is additionally trimmed). -/
theorem C8_counterexample :
    wrappedInMatchingQuotePair ['"'] = false ∧
    unwrapQuotes ['"'] = [] ∧ (['"'] : Chars) ≠ [] ∧
    wrappedInMatchingQuotePair ('"' :: ' ' :: 'a' :: ' ' :: ['"']) = true ∧
    (((('"' :: ' ' :: 'a' :: ' ' :: ['"']) : Chars).drop 1).dropLast =
      [' ', 'a', ' ']) ∧
    unwrapQuotes ('"' :: ' ' :: 'a' :: ' ' :: ['"']) = ['a'] := by
  refine ⟨by decide, by decide, by decide, by decide, by decide, by decide⟩

/-- C8 (amended): the unwrap step fires exactly when the text starts and
ends with the same quote character (also on a single quote character,
where the spec condition of a matching pair fails); when it fires it
removes the first and last character and additionally trims the inner
text, so it removes exactly the outer pair only when the inner text has
no surrounding whitespace; otherwise the text is unchanged. -/
theorem C8_quote_unwrap_amended (cs : Chars) :
    (wrappedInMatchingQuotePair cs = true →
      unwrapQuotes cs = trimC ((cs.drop 1).dropLast)) ∧
    (wrappedInMatchingQuotePair cs = true →
      trimC ((cs.drop 1).dropLast) = (cs.drop 1).dropLast →
      unwrapQuotes cs = (cs.drop 1).dropLast) ∧
    ((headIs '"' cs && lastIs '"' cs) = false →
      (headIs apoC cs && lastIs apoC cs) = false →
      unwrapQuotes cs = cs) := by
  refine ⟨?_, ?_, ?_⟩
  · intro hw
    have hc : ((headIs '"' cs && lastIs '"' cs) ||
        (headIs apoC cs && lastIs apoC cs)) = true := by
      simp only [wrappedInMatchingQuotePair, Bool.and_eq_true] at hw
      exact hw.2
    rw [unwrapQuotes, if_pos hc]
  · intro hw ht
    have hc : ((headIs '"' cs && lastIs '"' cs) ||
        (headIs apoC cs && lastIs apoC cs)) = true := by
      simp only [wrappedInMatchingQuotePair, Bool.and_eq_true] at hw
      exact hw.2
    rw [unwrapQuotes, if_pos hc, ht]
  · intro h1 h2
    rw [unwrapQuotes, if_neg]
    simp [h1, h2]

/-- Witness for C8 (amended): a properly wrapped text with a
whitespace-free inner part has exactly the outer pair removed. -/
theorem C8_quote_unwrap_amended_witness :
    wrappedInMatchingQuotePair ('"' :: 'a' :: ['"']) = true ∧
    unwrapQuotes ('"' :: 'a' :: ['"']) =
      ((('"' :: 'a' :: ['"']) : Chars).drop 1).dropLast :=
  ⟨by decide,
    (C8_quote_unwrap_amended ('"' :: 'a' :: ['"'])).2.1 (by decide) (by decide)⟩

/-- No label text is a prefix of the empty line. -/
theorem labelChars_not_prefix_nil (l : FrameworkLabel) :
    (labelChars l).isPrefixOf ([] : Chars) = false := by
  cases l <;> decide

/-- Two different label texts never both start the same line. -/
theorem label_prefix_unique {l m : FrameworkLabel} {t : Chars}
    (h : (labelChars l).isPrefixOf t = true)
    (h2 : (labelChars m).isPrefixOf t = true) : l = m := by
  have h1 := List.isPrefixOf_iff_prefix.mp h
  have h3 := List.isPrefixOf_iff_prefix.mp h2
  have h4 := List.prefix_or_prefix_of_prefix h1 h3
  cases l <;> cases m <;> first
    | rfl
    | (exfalso
       rcases h4 with h5 | h5
       all_goals revert h5
       all_goals decide)

/-- If the scanner's line regex does not match, no label text starts the
trimmed line. -/
theorem matchLabel_none_starts {t : Chars} (h : matchLabel t = none)
    (l : FrameworkLabel) : (labelChars l).isPrefixOf t = false := by
  simp only [matchLabel] at h
  have h2 := List.find?_eq_none.mp h l (by cases l <;> decide)
  have h3 : ¬ (labelChars l <+: t) := by simpa using h2
  rw [Bool.eq_false_iff]
  intro hp
  exact h3 (List.isPrefixOf_iff_prefix.mp hp)

/-- If the scanner's line regex matches label `l`, the label text starts
the trimmed line. -/
theorem matchLabel_some_starts {t : Chars} {l : FrameworkLabel}
    (h : matchLabel t = some l) : (labelChars l).isPrefixOf t = true := by
  simp only [matchLabel] at h
  simpa using List.find?_some h

/-- Invariant of the framework line scanner: if the accumulator holds one
`l`-labelled line for each label in `found` and none otherwise, the final
accumulator holds one `l`-labelled line for each finally-found label and
none otherwise. -/
theorem scanGo_count (l : FrameworkLabel) :
    ∀ (lines : List Chars) (found : List FrameworkLabel)
      (cur : Option FrameworkLabel) (acc : List Chars),
      countLabelLinesTrim l acc = (if l ∈ found then 1 else 0) →
      countLabelLinesTrim l (scanGo found cur acc lines).1 =
        (if l ∈ (scanGo found cur acc lines).2 then 1 else 0) := by
  intro lines
  induction lines with
  | nil => intro found cur acc hinv; simpa [scanGo] using hinv
  | cons line rest ih =>
    intro found cur acc hinv
    cases hm : matchLabel (trimC line) with
    | some m =>
      by_cases hf : m ∈ found
      · simp only [scanGo, hm]
        rw [if_pos hf]
        exact hinv
      · simp only [scanGo, hm]
        rw [if_neg hf]
        apply ih
        have hone : countLabelLinesTrim l [line] =
            (if l = m then 1 else 0) := by
          by_cases hlm : l = m
          · subst hlm
            simp [countLabelLinesTrim, matchLabel_some_starts hm]
          · have hnp : (labelChars l).isPrefixOf (trimC line) = false := by
              rw [Bool.eq_false_iff]
              intro hp
              exact hlm (label_prefix_unique hp (matchLabel_some_starts hm))
            simp [countLabelLinesTrim, hnp, hlm]
        have hsep : countLabelLinesTrim l [([] : Chars)] = 0 := by
          simp [countLabelLinesTrim, show trimC ([] : Chars) = [] from rfl,
            labelChars_not_prefix_nil]
        by_cases hE : acc.isEmpty
        · rw [if_pos hE]
          rw [show countLabelLinesTrim l (acc ++ [line]) =
            countLabelLinesTrim l acc + countLabelLinesTrim l [line] from by
              simp [countLabelLinesTrim, List.filter_append]]
          rw [hinv, hone]
          by_cases hlm : l = m
          · subst hlm
            simp [hf]
          · simp [hlm, List.mem_cons]
        · rw [if_neg hE]
          rw [show countLabelLinesTrim l (acc ++ [([] : Chars), line]) =
            countLabelLinesTrim l acc + countLabelLinesTrim l [line] from by
              simp [countLabelLinesTrim, List.filter_append,
                show trimC ([] : Chars) = [] from rfl, labelChars_not_prefix_nil]]
          rw [hinv, hone]
          by_cases hlm : l = m
          · subst hlm
            simp [hf]
          · simp [hlm, List.mem_cons]
    | none =>
      have hnp : (labelChars l).isPrefixOf (trimC line) = false :=
        matchLabel_none_starts hm l
      have hpush : countLabelLinesTrim l (acc ++ [line]) =
          countLabelLinesTrim l acc := by
        simp [countLabelLinesTrim, List.filter_append, hnp]
      simp only [scanGo, hm]
      split
      · exact ih _ _ _ (by rw [hpush]; exact hinv)
      · split
        · exact ih _ _ _ (by rw [hpush]; exact hinv)
        · split
          · split
            · exact hinv
            · exact ih _ _ _ hinv
          · exact ih _ _ _ hinv

set_option maxRecDepth 100000 in
/-- Counterexample to C3 as stated: a raw reply with a duplicated
`Role:` label (and a single `Context:` line before the duplicate) whose
normalized output contains two `Context:` lines, because the final
per-label spacing pass splits a mid-line `Context:` occurrence of a
continuation line into a fresh label line. -/
theorem C3_counterexample :
    countLabelLineStarts .role "Role: A\nx Context: y\n\nContext: B\n\nRole: A2" = 2 ∧
    countLabelLineStarts .context
      "Role: A\nx Context: y\n\nContext: B\n\nRole: A2" = 1 ∧
    cleanResponse "Role: A\nx Context: y\n\nContext: B\n\nRole: A2"
      "framework-optimization" = "Role: A\nx\n\nContext: y\n\nContext: B" ∧
    countLabelLineStarts .context "Role: A\nx\n\nContext: y\n\nContext: B" = 2 := by
  refine ⟨by decide, by decide, by decide, by decide⟩

set_option maxRecDepth 100000 in
/-- C3 (amended): the line scanner stops at the first duplicated label,
returning the accumulator as is; consequently the scanner stage itself
emits exactly one labelled line per found label and none for the others
(later reformatting passes can break this, as the counterexample shows);
and the specification's concrete duplicate scenario normalizes as
claimed. -/
theorem C3_duplicate_label_truncation :
    (∀ (found : List FrameworkLabel) (cur : Option FrameworkLabel)
        (acc : List Chars) (line : Chars) (rest : List Chars) (l : FrameworkLabel),
        matchLabel (trimC line) = some l → l ∈ found →
        scanGo found cur acc (line :: rest) = (acc, found)) ∧
    (∀ (lines : List Chars) (l : FrameworkLabel),
        countLabelLinesTrim l (scanGo [] none [] lines).1 =
          (if l ∈ (scanGo [] none [] lines).2 then 1 else 0)) ∧
    cleanResponse "Role: A\n\nContext: B\n\nRole: A2\n\nContext: B2"
      "framework-optimization" = "Role: A\n\nContext: B" := by
  refine ⟨?_, ?_, by decide⟩
  · intro found cur acc line rest l hm hf
    simp only [scanGo, hm]
    rw [if_pos hf]
  · intro lines l
    apply scanGo_count
    simp [countLabelLinesTrim]

set_option maxRecDepth 100000 in
/-- Witness for C3 (amended): the scanner break applied to a concrete
duplicate `Role:` line. -/
theorem C3_duplicate_label_truncation_witness :
    scanGo [FrameworkLabel.role] none [("Role: A").data]
      (("Role: X").data :: []) = ([("Role: A").data], [FrameworkLabel.role]) :=
  C3_duplicate_label_truncation.1 [FrameworkLabel.role] none [("Role: A").data]
    ("Role: X").data [] FrameworkLabel.role (by decide) (by decide)

/-! ### Normal-form text lemmas -/

theorem joinNL_cons (l : Chars) (rest : List Chars) (h : rest ≠ []) :
    joinNL (l :: rest) = l ++ '\n' :: joinNL rest := by
  cases rest with
  | nil => exact absurd rfl h
  | cons a t => simp [joinNL, List.intercalate, List.intersperse]

theorem splitNL_no_nl (l : Chars) (h : '\n' ∉ l) : splitNL l = [l] := by
  induction l with
  | nil => rfl
  | cons c t ih =>
    have hc : c ≠ '\n' := fun hh => h (hh ▸ List.mem_cons_self c t)
    have ht : '\n' ∉ t := fun hh => h (List.mem_cons_of_mem c hh)
    simp [splitNL, hc, ih ht]

theorem splitNL_append (l rest : Chars) (h : '\n' ∉ l) :
    splitNL (l ++ '\n' :: rest) = l :: splitNL rest := by
  induction l with
  | nil => simp [splitNL]
  | cons c t ih =>
    have hc : c ≠ '\n' := fun hh => h (hh ▸ List.mem_cons_self c t)
    have ht : '\n' ∉ t := fun hh => h (List.mem_cons_of_mem c hh)
    have h2 := ih ht
    simp only [List.cons_append, splitNL, hc, if_false]
    rw [show t.append ('\n' :: rest) = t ++ ('\n' :: rest) from rfl, h2]

theorem splitNL_joinNL (lines : List Chars)
    (h : ∀ line ∈ lines, '\n' ∉ line) (hne : lines ≠ []) :
    splitNL (joinNL lines) = lines := by
  induction lines with
  | nil => exact absurd rfl hne
  | cons l rest ih =>
    cases rest with
    | nil =>
      rw [show joinNL [l] = l from by simp [joinNL, List.intercalate]]
      exact splitNL_no_nl l (h l (List.mem_cons_self l []))
    | cons a t =>
      rw [joinNL_cons l (a :: t) (by simp)]
      rw [splitNL_append l _ (h l (List.mem_cons_self l (a :: t)))]
      rw [ih (fun line hl => h line (List.mem_cons_of_mem l hl)) (by simp)]

theorem dropWsL_cons_nonws {c : Char} (t : Chars) (h : isWs c = false) :
    dropWsL (c :: t) = c :: t := by
  simp [dropWsL, List.dropWhile_cons, h]

theorem trimC_eq_self (cs : Chars)
    (hh : ∀ c, cs.head? = some c → isWs c = false)
    (hl : ∀ c, cs.getLast? = some c → isWs c = false) :
    trimC cs = cs := by
  cases cs with
  | nil => rfl
  | cons c t =>
    rw [trimC, dropWsL_cons_nonws t (hh c rfl)]
    rcases List.eq_nil_or_concat (c :: t) with h1 | ⟨as, z, h1⟩
    · simp at h1
    · have hz : isWs z = false := by
        apply hl
        rw [h1]
        simp [List.getLast?_concat]
      rw [h1, dropWsR, List.concat_eq_append, List.reverse_append]
      simp only [List.reverse_cons, List.reverse_nil, List.nil_append,
        List.singleton_append, List.dropWhile_cons, hz]
      simp

/-! ### Label-line lemmas -/

theorem labelChars_cons (l : FrameworkLabel) :
    ∃ c t, labelChars l = c :: t ∧ isWs c = false := by
  cases l <;> exact ⟨_, _, rfl, by decide⟩

theorem isPrefixOf_append_self (a b : Chars) : a.isPrefixOf (a ++ b) = true :=
  List.isPrefixOf_iff_prefix.mpr (List.prefix_append a b)

theorem matchLabel_nil : matchLabel [] = none := by decide

theorem matchLabel_label (lab : FrameworkLabel) (rest : Chars) :
    matchLabel (labelChars lab ++ rest) = some lab := by
  cases lab <;>
    simp [matchLabel, frameworkLabels, List.find?, labelChars, labelStr,
      List.isPrefixOf]

/-! ### Occurrence-count lemmas -/

theorem isPrefixOf_nil_iff (lab : Chars) :
    lab.isPrefixOf ([] : Chars) = true ↔ lab = [] := by
  cases lab <;> simp [List.isPrefixOf]

theorem prefix_extend {lab x : Chars} (y : Chars)
    (h : lab.isPrefixOf x = true) : lab.isPrefixOf (x ++ y) = true :=
  List.isPrefixOf_iff_prefix.mpr
    ((List.isPrefixOf_iff_prefix.mp h).trans (List.prefix_append x y))

theorem countSub_pos_of_starts {lab x : Chars} (h : lab.isPrefixOf x = true)
    (hne : lab ≠ []) : 1 ≤ countSub lab x := by
  cases x with
  | nil => exact absurd ((isPrefixOf_nil_iff lab).mp h) hne
  | cons c t =>
    rw [countSub, if_pos h]
    omega

theorem countSub_le_append_right (lab a b : Chars) :
    countSub lab a ≤ countSub lab (a ++ b) := by
  induction a with
  | nil => simp [countSub]
  | cons c t ih =>
    have key : countSub lab ((c :: t) ++ b) =
        (if lab.isPrefixOf ((c :: t) ++ b) = true then 1 else 0) +
          countSub lab (t ++ b) := rfl
    have key2 : countSub lab (c :: t) =
        (if lab.isPrefixOf (c :: t) = true then 1 else 0) + countSub lab t := rfl
    have hif : (if lab.isPrefixOf (c :: t) = true then 1 else 0) ≤
        (if lab.isPrefixOf ((c :: t) ++ b) = true then 1 else 0) := by
      by_cases hp : lab.isPrefixOf (c :: t) = true
      · rw [if_pos hp, if_pos (prefix_extend b hp)]
      · simp [hp]
    omega

theorem countSub_suffix_le (lab : Chars) :
    ∀ (x : Chars) (n : Nat), countSub lab (x.drop n) ≤ countSub lab x := by
  intro x
  induction x with
  | nil => intro n; simp
  | cons c t ih =>
    intro n
    cases n with
    | zero => simp
    | succ m =>
      calc countSub lab ((c :: t).drop (m + 1)) = countSub lab (t.drop m) := rfl
      _ ≤ countSub lab t := ih m
      _ ≤ countSub lab (c :: t) := by rw [countSub]; omega

theorem prefix_append_cases :
    ∀ (lab a b : Chars), lab.isPrefixOf (a ++ b) = true →
      lab.isPrefixOf a = true ∨
      (a.length < lab.length ∧ ∃ ch, b.head? = some ch ∧ ch ∈ lab) := by
  intro lab
  induction lab with
  | nil => intro a b _; left; cases a <;> simp [List.isPrefixOf]
  | cons y labt ih =>
    intro a b hp
    cases a with
    | nil =>
      right
      refine ⟨by simp, ?_⟩
      cases b with
      | nil => simp [List.isPrefixOf] at hp
      | cons c bt =>
        simp only [List.nil_append, List.isPrefixOf, Bool.and_eq_true,
          beq_iff_eq] at hp
        exact ⟨y, by simp [hp.1], List.mem_cons_self y labt⟩
    | cons x at2 =>
      simp only [List.cons_append, List.isPrefixOf, Bool.and_eq_true,
        beq_iff_eq] at hp
      obtain ⟨hyx, hp2⟩ := hp
      rcases ih at2 b hp2 with h1 | ⟨h1, ch, h2, h3⟩
      · left
        simp [List.isPrefixOf, hyx, h1]
      · right
        refine ⟨by simpa using h1, ch, h2, List.mem_cons_of_mem y h3⟩

theorem no_occ_in_drops {lab L tail : Chars} (h2 : 2 ≤ lab.length)
    (hnl : '\n' ∉ lab) (hcount : countSub lab L = 0)
    (hth : tail.head? = some '\n' ∨ tail = []) :
    ∀ j, lab.isPrefixOf (L.drop j ++ tail) = false := by
  intro j
  rw [Bool.eq_false_iff]
  intro hp
  rcases prefix_append_cases lab (L.drop j) tail hp with hL | ⟨_, ch, hch, hmem⟩
  · have hge := countSub_pos_of_starts hL (by intro h; rw [h] at h2; simp at h2)
    have hle := countSub_suffix_le lab L j
    omega
  · rcases hth with h3 | h3
    · rw [h3] at hch
      injection hch with h4
      rw [← h4] at hmem
      exact hnl hmem
    · rw [h3] at hch
      simp at hch

/-! ### Spacing-pass scanner lemmas -/

theorem dropWhile_eq_drop (p : Char → Bool) :
    ∀ (l : Chars), ∃ n, l.dropWhile p = l.drop n := by
  intro l
  induction l with
  | nil => exact ⟨0, rfl⟩
  | cons c t ih =>
    by_cases hc : p c = true
    · obtain ⟨n, hn⟩ := ih
      exact ⟨n + 1, by simp [List.dropWhile_cons, hc, hn]⟩
    · exact ⟨0, by simp [List.dropWhile_cons, hc]⟩

theorem gapStep_cont_le {lab : Chars} {c : Char} {rest emit cont : Chars}
    (h : gapStep lab c rest = some (emit, cont)) : cont.length ≤ rest.length := by
  rw [gapStep] at h
  by_cases hws : isWs c = true
  · rw [if_pos hws] at h
    simp at h
  · rw [if_neg hws] at h
    by_cases hp : lab.isPrefixOf (rest.dropWhile isWs) = true
    · rw [if_pos hp] at h
      simp only [Option.some.injEq, Prod.mk.injEq] at h
      rw [← h.2]
      calc ((rest.dropWhile isWs).drop lab.length).length ≤
          (rest.dropWhile isWs).length := (List.drop_sublist _ _).length_le
      _ ≤ rest.length := (List.dropWhile_sublist _).length_le
    · rw [if_neg hp] at h
      simp at h

theorem scanReplF_fuel (lab : Chars) :
    ∀ (k : Nat) (cs : Chars), cs.length ≤ k →
      ∀ f g, cs.length ≤ f → cs.length ≤ g →
      scanReplF (gapStep lab) f cs = scanReplF (gapStep lab) g cs := by
  intro k
  induction k with
  | zero =>
    intro cs hk f g _ _
    have : cs = [] := List.eq_nil_of_length_eq_zero (by omega)
    subst this
    cases f <;> cases g <;> rfl
  | succ m ih =>
    intro cs hk f g hf hg
    cases cs with
    | nil => cases f <;> cases g <;> rfl
    | cons c rest =>
      simp only [List.length_cons] at hk hf hg
      cases f with
      | zero => omega
      | succ f2 =>
        cases g with
        | zero => omega
        | succ g2 =>
          simp only [scanReplF]
          cases hstep : gapStep lab c rest with
          | none =>
            rw [ih rest (by omega) f2 g2 (by omega) (by omega)]
          | some pr =>
            obtain ⟨emit, cont⟩ := pr
            have hle := gapStep_cont_le hstep
            change emit ++ scanReplF (gapStep lab) f2 cont =
              emit ++ scanReplF (gapStep lab) g2 cont
            rw [ih cont (by omega) f2 g2 (by omega) (by omega)]

theorem scanReplF_seg (lab : Chars) :
    ∀ (seg tail : Chars) (f : Nat),
      (∀ pre c suf, seg = pre ++ c :: suf → gapStep lab c (suf ++ tail) = none) →
      scanReplF (gapStep lab) (seg.length + f) (seg ++ tail) =
        seg ++ scanReplF (gapStep lab) f tail := by
  intro seg
  induction seg with
  | nil => intro tail f _; simp
  | cons c seg2 ih =>
    intro tail f hnone
    have hstep : gapStep lab c (seg2 ++ tail) = none := hnone [] c seg2 rfl
    rw [show (c :: seg2).length + f = (seg2.length + f) + 1 from by
      simp [List.length_cons]; omega]
    rw [show (c :: seg2) ++ tail = c :: (seg2 ++ tail) from rfl]
    cases htail : seg2 ++ tail with
    | nil =>
      have h1 : seg2 = [] := by
        cases seg2 with
        | nil => rfl
        | cons x y => simp at htail
      have h2 : tail = [] := by
        rw [h1] at htail
        simpa using htail
      subst h1
      subst h2
      simp only [List.nil_append] at hstep
      simp [scanReplF, hstep]
    | cons d rest2 =>
      rw [← htail]
      simp only [scanReplF]
      rw [htail]
      rw [show gapStep lab c (d :: rest2) = none from htail ▸ hstep]
      rw [← htail]
      rw [ih tail f (fun pre c2 suf h => hnone (c :: pre) c2 suf (by rw [h]; rfl))]
      rfl

theorem gapStep_none_line (lab line tail : Chars)
    (htail2 : ∀ j, lab.isPrefixOf (line.drop j ++ tail) = false)
    (htail : lab.isPrefixOf (tail.dropWhile isWs) = false) :
    ∀ pre c suf, line = pre ++ c :: suf → gapStep lab c (suf ++ tail) = none := by
  intro pre c suf heq
  rw [gapStep]
  by_cases hws : isWs c = true
  · rw [if_pos hws]
  · rw [if_neg hws]
    have hsuf : suf = line.drop (pre.length + 1) := by
      rw [heq]
      rw [show pre ++ c :: suf = (pre ++ [c]) ++ suf from by simp]
      rw [show pre.length + 1 = (pre ++ [c]).length from by simp]
      rw [List.drop_left]
    have hpref : lab.isPrefixOf ((suf ++ tail).dropWhile isWs) = false := by
      rw [List.dropWhile_append]
      by_cases hE : (suf.dropWhile isWs).isEmpty = true
      · rw [if_pos hE]
        exact htail
      · rw [if_neg hE]
        obtain ⟨n, hn⟩ := dropWhile_eq_drop isWs suf
        rw [hn, hsuf, List.drop_drop]
        exact htail2 _
    simp [hpref]

theorem gapStep_match (lab : Chars) (z : Char) (sep X : Chars)
    (hz : isWs z = false)
    (hsep : ∀ c ∈ sep, isWs c = true)
    (hlab : ∃ c t, lab = c :: t ∧ isWs c = false) :
    gapStep lab z (sep ++ lab ++ X) =
      some (z :: '\n' :: '\n' :: lab, X) := by
  obtain ⟨c0, t0, hl, hc0⟩ := hlab
  rw [gapStep, if_neg (by simp [hz])]
  have h1 : (sep ++ lab ++ X).dropWhile isWs = lab ++ X := by
    rw [show sep ++ lab ++ X = sep ++ (lab ++ X) from by simp]
    rw [List.dropWhile_append]
    have hsepE : sep.dropWhile isWs = [] := by
      rw [List.dropWhile_eq_nil_iff]
      exact hsep
    rw [hsepE]
    simp only [List.isEmpty_nil, if_true]
    rw [hl, List.cons_append, List.dropWhile_cons, hc0]
    simp
  simp only [h1, isPrefixOf_append_self, if_true]
  rw [List.drop_left]

theorem labelChars_len2 (l : FrameworkLabel) : 2 ≤ (labelChars l).length := by
  cases l <;> decide

theorem labelChars_no_nl (l : FrameworkLabel) : '\n' ∉ labelChars l := by
  cases l <;> decide

/-- The per-section occurrence condition, unpacked. -/
theorem secLine_countSub {s : Sec} (hok : secOkB s = true) {l : FrameworkLabel}
    (hl : l ∈ gapPassLabels) :
    countSub (labelChars l) (secLine s) = if s.lab = l then 1 else 0 := by
  simp only [secOkB, Bool.and_eq_true, List.all_eq_true] at hok
  have h := hok.2 l hl
  rw [beq_iff_eq] at h
  rw [h]
  by_cases he : s.lab = l
  · simp [he]
  · simp [he]

/-- The label line ends in a non-whitespace character. -/
theorem secLine_last {s : Sec} (hok : secOkB s = true) :
    ∃ i z, secLine s = i ++ [z] ∧ isWs z = false := by
  simp only [secOkB, Bool.and_eq_true] at hok
  have hlast := hok.1.2
  rcases List.eq_nil_or_concat s.rest with hr | ⟨as, a, hr⟩
  · rw [secLine, hr, List.append_nil]
    have : ∃ i, labelChars s.lab = i ++ [Char.ofNat 58] := by
      cases s.lab <;> exact ⟨_, rfl⟩
    obtain ⟨i, hi⟩ := this
    exact ⟨i, Char.ofNat 58, hi, by decide⟩
  · rw [hr, List.concat_eq_append] at hlast
    simp only [List.getLast?_append, List.getLast?_singleton] at hlast
    refine ⟨labelChars s.lab ++ as, a, ?_, by simpa using hlast⟩
    rw [secLine, hr, List.concat_eq_append, List.append_assoc]

/-- A whitespace segment never starts a spacing-pass match. -/
theorem gapStep_none_ws (lab seg tail : Chars)
    (h : ∀ c ∈ seg, isWs c = true) :
    ∀ pre c suf, seg = pre ++ c :: suf → gapStep lab c (suf ++ tail) = none := by
  intro pre c suf heq
  have hc : c ∈ seg := by
    rw [heq]
    exact List.mem_append_right pre (List.mem_cons_self c suf)
  rw [gapStep, if_pos (h c hc)]

/-- No occurrence of the label reachable from inside a line followed by a
newline-headed (or empty) tail. -/
theorem no_occ_line {l : FrameworkLabel} {L tail : Chars}
    (hcount : countSub (labelChars l) L = 0)
    (hth : tail.head? = some '\n' ∨ tail = []) :
    ∀ j, (labelChars l).isPrefixOf (L.drop j ++ tail) = false :=
  no_occ_in_drops (labelChars_len2 l) (labelChars_no_nl l) hcount hth

/-- The spacing pass leaves sections free of its label unchanged. -/
theorem gapAfter (l : FrameworkLabel) (hgl : l ∈ gapPassLabels) :
    ∀ (secs : List Sec) (done : List FrameworkLabel) (f : Nat),
      (renderGap done secs).length ≤ f →
      secs.all secOkB = true →
      (∀ s ∈ secs, s.lab ≠ l) →
      scanReplF (gapStep (labelChars l)) f (renderGap done secs) =
        renderGap done secs := by
  intro secs
  induction secs with
  | nil => intro done f _ _ _; cases f <;> rfl
  | cons s rest ih =>
    intro done f hf hok hnol
    have hoks : secOkB s = true := by
      simp only [List.all_eq_true] at hok
      exact hok s (List.mem_cons_self s rest)
    have hcount : countSub (labelChars l) (secLine s) = 0 := by
      rw [secLine_countSub hoks hgl, if_neg (hnol s (List.mem_cons_self s rest))]
    cases rest with
    | nil =>
      rw [show renderGap done [s] = secLine s ++ ([] : Chars) from rfl] at hf ⊢
      rw [show f = (secLine s).length + (f - (secLine s).length) from by
        simp at hf; omega]
      rw [scanReplF_seg (labelChars l) (secLine s) [] _
        (gapStep_none_line (labelChars l) (secLine s) []
          (no_occ_line hcount (Or.inr rfl))
          (by simpa using labelChars_not_prefix_nil l))]
      cases (f - (secLine s).length) <;> rfl
    | cons s2 rest2 =>
      have hd : renderGap done (s :: s2 :: rest2) =
          secLine s ++ ((if s2.lab ∈ done then ['\n', '\n']
            else ['\n', '\n', '\n']) ++ renderGap done (s2 :: rest2)) := rfl
      set sep := (if s2.lab ∈ done then ['\n', '\n'] else ['\n', '\n', '\n'])
        with hsep
      have hsepws : ∀ c ∈ sep, isWs c = true := by
        rw [hsep]
        by_cases h2 : s2.lab ∈ done <;> simp [h2] <;> decide
      have hsephead : ∀ X : Chars, (sep ++ X).head? = some '\n' := by
        intro X
        rw [hsep]
        by_cases h2 : s2.lab ∈ done <;> simp [h2]
      obtain ⟨Y2, hr2⟩ : ∃ Y, renderGap done (s2 :: rest2) = secLine s2 ++ Y :=
        ⟨_, rfl⟩
      have hnextpref : ∀ Y : Chars,
          (labelChars l).isPrefixOf (secLine s2 ++ Y) = false := by
        intro Y
        rw [Bool.eq_false_iff]
        intro hp
        have hp2 : (labelChars s2.lab).isPrefixOf
            (labelChars s2.lab ++ (s2.rest ++ Y)) = true :=
          isPrefixOf_append_self _ _
        rw [secLine, List.append_assoc] at hp
        exact hnol s2 (List.mem_cons_of_mem s (List.mem_cons_self s2 rest2))
          (label_prefix_unique hp2 hp)
      have htail1 : (labelChars l).isPrefixOf
          ((sep ++ renderGap done (s2 :: rest2)).dropWhile isWs) = false := by
        have hde : (sep ++ renderGap done (s2 :: rest2)).dropWhile isWs =
            renderGap done (s2 :: rest2) := by
          rw [List.dropWhile_append]
          have : sep.dropWhile isWs = [] := List.dropWhile_eq_nil_iff.mpr hsepws
          rw [this]
          simp only [List.isEmpty_nil, if_true]
          rw [hr2]
          obtain ⟨c0, t0, hc0, hw0⟩ := labelChars_cons s2.lab
          rw [secLine, hc0]
          simp [List.dropWhile_cons, hw0]
        rw [hde, hr2]
        exact hnextpref _
      rw [hd]
      rw [show f = (secLine s).length + (f - (secLine s).length) from by
        rw [hd] at hf; simp [List.length_append] at hf; omega]
      rw [scanReplF_seg (labelChars l) (secLine s) _ _
        (gapStep_none_line (labelChars l) (secLine s) _
          (no_occ_line hcount (Or.inl (hsephead _)))
          htail1)]
      congr 1
      rw [show f - (secLine s).length =
        sep.length + (f - (secLine s).length - sep.length) from by
        rw [hd] at hf; simp [List.length_append] at hf; omega]
      rw [scanReplF_seg (labelChars l) sep _ _
        (gapStep_none_ws (labelChars l) sep _ hsepws)]
      congr 1
      apply ih done (f - (secLine s).length - sep.length)
      · rw [hd] at hf
        simp only [List.length_append] at hf ⊢
        omega
      · simp only [List.all_eq_true] at hok ⊢
        exact fun x hx => hok x (List.mem_cons_of_mem s hx)
      · exact fun x hx => hnol x (List.mem_cons_of_mem s hx)

theorem countSub_le_append_left (lab a b : Chars) :
    countSub lab b ≤ countSub lab (a ++ b) := by
  induction a with
  | nil => simp
  | cons c t ih =>
    have key : countSub lab ((c :: t) ++ b) =
        (if lab.isPrefixOf ((c :: t) ++ b) = true then 1 else 0) +
          countSub lab (t ++ b) := rfl
    omega

/-- In a label line, the label does not reoccur after its leading
occurrence. -/
theorem countSub_rest_zero (l : FrameworkLabel) (X : Chars)
    (h : countSub (labelChars l) (labelChars l ++ X) = 1) :
    countSub (labelChars l) X = 0 := by
  obtain ⟨c0, t0, hc, _⟩ := labelChars_cons l
  have key : countSub (labelChars l) (labelChars l ++ X) =
      (if (labelChars l).isPrefixOf (labelChars l ++ X) = true then 1 else 0) +
        countSub (labelChars l) (t0 ++ X) := by
    conv_lhs => rw [hc]
    rw [show (c0 :: t0) ++ X = c0 :: (t0 ++ X) from rfl]
    rw [countSub]
    rw [← hc]
    rw [show c0 :: (t0 ++ X) = labelChars l ++ X from by rw [hc]; rfl]
  rw [isPrefixOf_append_self, if_pos rfl] at key
  have h2 := countSub_le_append_left (labelChars l) t0 X
  omega

theorem scanReplF_step_some {lab : Chars} {z : Char} {rest emit cont : Chars}
    (f : Nat) (h : gapStep lab z rest = some (emit, cont)) :
    scanReplF (gapStep lab) (f + 1) (z :: rest) =
      emit ++ scanReplF (gapStep lab) f cont := by
  simp [scanReplF, h]

theorem renderGap_congr (l : FrameworkLabel) :
    ∀ (secs : List Sec), (∀ s ∈ secs.drop 1, s.lab ≠ l) → ∀ done,
      renderGap (l :: done) secs = renderGap done secs := by
  intro secs
  induction secs with
  | nil => intro _ done; rfl
  | cons s rest ih =>
    intro h done
    cases rest with
    | nil => rfl
    | cons s2 rest2 =>
      have h2 : s2.lab ≠ l := h s2 (List.mem_cons_self s2 rest2)
      have hmem : (if s2.lab ∈ l :: done then (['\n', '\n'] : Chars)
          else ['\n', '\n', '\n']) =
          (if s2.lab ∈ done then ['\n', '\n'] else ['\n', '\n', '\n']) := by
        simp [List.mem_cons, h2]
      calc renderGap (l :: done) (s :: s2 :: rest2)
          = secLine s ++ ((if s2.lab ∈ l :: done then ['\n', '\n']
              else ['\n', '\n', '\n']) ++ renderGap (l :: done) (s2 :: rest2)) := rfl
        _ = secLine s ++ ((if s2.lab ∈ done then ['\n', '\n']
              else ['\n', '\n', '\n']) ++ renderGap done (s2 :: rest2)) := by
            rw [hmem, ih (fun x hx => h x (List.mem_cons_of_mem s2 hx)) done]
        _ = renderGap done (s :: s2 :: rest2) := rfl

/-- After the match of the spacing pass inside the label line, the rest
of the text passes through unchanged. -/
theorem gapTail (l : FrameworkLabel) (hgl : l ∈ gapPassLabels) (R : Chars)
    (hR : countSub (labelChars l) R = 0) :
    ∀ (rest2 : List Sec) (done : List FrameworkLabel) (Y : Chars) (f : Nat),
      ((rest2 = [] ∧ Y = []) ∨
        (∃ s3 rest3, rest2 = s3 :: rest3 ∧
          Y = (if s3.lab ∈ done then ['\n', '\n']
            else ['\n', '\n', '\n']) ++ renderGap done rest2)) →
      rest2.all secOkB = true →
      (∀ s ∈ rest2, s.lab ≠ l) →
      (R ++ Y).length ≤ f →
      scanReplF (gapStep (labelChars l)) f (R ++ Y) = R ++ Y := by
  intro rest2 done Y f hYd hok hnol hf
  rcases hYd with ⟨hr0, hY⟩ | ⟨s3, rest3, hr0, hY⟩
  · subst hr0
    rw [hY]
    rw [show f = R.length + (f - R.length) from by
      rw [hY] at hf; simp at hf; omega]
    rw [scanReplF_seg (labelChars l) R [] _
      (gapStep_none_line (labelChars l) R []
        (no_occ_line hR (Or.inr rfl))
        (by simpa using labelChars_not_prefix_nil l))]
    cases (f - R.length) <;> rfl
  · subst hr0
    rw [hY]
    set sep := (if s3.lab ∈ done then ['\n', '\n'] else ['\n', '\n', '\n'])
      with hsep
    have hsepws : ∀ c ∈ sep, isWs c = true := by
      rw [hsep]
      by_cases h2 : s3.lab ∈ done <;> simp [h2] <;> decide
    have hsephead : ∀ X : Chars, (sep ++ X).head? = some '\n' := by
      intro X
      rw [hsep]
      by_cases h2 : s3.lab ∈ done <;> simp [h2]
    obtain ⟨Y3, hr3⟩ : ∃ Z, renderGap done (s3 :: rest3) = secLine s3 ++ Z :=
      ⟨_, rfl⟩
    have hnextpref : ∀ W : Chars,
        (labelChars l).isPrefixOf (secLine s3 ++ W) = false := by
      intro W
      rw [Bool.eq_false_iff]
      intro hp
      have hp2 : (labelChars s3.lab).isPrefixOf
          (labelChars s3.lab ++ (s3.rest ++ W)) = true :=
        isPrefixOf_append_self _ _
      rw [secLine, List.append_assoc] at hp
      exact hnol s3 (List.mem_cons_self s3 rest3)
        (label_prefix_unique hp2 hp)
    have htail1 : (labelChars l).isPrefixOf
        ((sep ++ renderGap done (s3 :: rest3)).dropWhile isWs) = false := by
      have hde : (sep ++ renderGap done (s3 :: rest3)).dropWhile isWs =
          renderGap done (s3 :: rest3) := by
        rw [List.dropWhile_append]
        have hsE : sep.dropWhile isWs = [] := List.dropWhile_eq_nil_iff.mpr hsepws
        rw [hsE]
        simp only [List.isEmpty_nil, if_true]
        rw [hr3]
        obtain ⟨c0, t0, hc0, hw0⟩ := labelChars_cons s3.lab
        rw [secLine, hc0]
        simp [List.dropWhile_cons, hw0]
      rw [hde, hr3]
      exact hnextpref _
    have hflen : (R ++ (sep ++ renderGap done (s3 :: rest3))).length ≤ f := by
      rw [hY] at hf
      exact hf
    rw [show f = R.length + (f - R.length) from by
      simp only [List.length_append] at hflen; omega]
    rw [scanReplF_seg (labelChars l) R _ _
      (gapStep_none_line (labelChars l) R _
        (no_occ_line hR (Or.inl (hsephead _)))
        htail1)]
    congr 1
    rw [show f - R.length = sep.length + (f - R.length - sep.length) from by
      simp only [List.length_append] at hflen; omega]
    rw [scanReplF_seg (labelChars l) sep _ _
      (gapStep_none_ws (labelChars l) sep _ hsepws)]
    congr 1
    apply gapAfter l hgl (s3 :: rest3) done
    · simp only [List.length_append] at hflen ⊢
      omega
    · exact hok
    · exact hnol

/-- The spacing pass for label `l` turns the three-newline boundary in
front of the unique `l` section into a blank line and changes nothing
else. -/
theorem gapMain (l : FrameworkLabel) (hgl : l ∈ gapPassLabels) :
    ∀ (secs : List Sec) (done : List FrameworkLabel) (f : Nat),
      (renderGap done secs).length ≤ f →
      l ∉ done →
      secs.all secOkB = true →
      (secs.map Sec.lab).Nodup →
      (∀ s ∈ secs.take 1, s.lab ≠ l) →
      scanReplF (gapStep (labelChars l)) f (renderGap done secs) =
        renderGap (l :: done) secs := by
  intro secs
  induction secs with
  | nil => intro done f _ _ _ _ _; cases f <;> rfl
  | cons s rest ih =>
    intro done f hf hld hok hnd hfirst
    have hoks : secOkB s = true := by
      simp only [List.all_eq_true] at hok
      exact hok s (List.mem_cons_self s rest)
    have hsl : s.lab ≠ l := hfirst s (by simp)
    have hcount : countSub (labelChars l) (secLine s) = 0 := by
      rw [secLine_countSub hoks hgl, if_neg hsl]
    cases rest with
    | nil =>
      rw [show renderGap done [s] = secLine s ++ ([] : Chars) from rfl] at hf ⊢
      rw [show f = (secLine s).length + (f - (secLine s).length) from by
        simp at hf; omega]
      rw [scanReplF_seg (labelChars l) (secLine s) [] _
        (gapStep_none_line (labelChars l) (secLine s) []
          (no_occ_line hcount (Or.inr rfl))
          (by simpa using labelChars_not_prefix_nil l))]
      rw [show renderGap (l :: done) [s] = secLine s ++ ([] : Chars) from rfl]
      cases (f - (secLine s).length) <;> rfl
    | cons s2 rest2 =>
      have hok2 : (s2 :: rest2).all secOkB = true := by
        simp only [List.all_eq_true] at hok ⊢
        exact fun x hx => hok x (List.mem_cons_of_mem s hx)
      by_cases hs2 : s2.lab = l
      · have hnd2 : (List.map Sec.lab (s2 :: rest2)).Nodup :=
          (List.nodup_cons.mp hnd).2
        have hno3 : ∀ x ∈ rest2, x.lab ≠ l := by
          intro x hx hxl
          have hh : s2.lab ∉ List.map Sec.lab rest2 := by
            have := (List.nodup_cons.mp hnd2).1
            simpa using this
          exact hh (by
            rw [hs2, ← hxl]
            exact List.mem_map_of_mem Sec.lab hx)
        have hok3 : rest2.all secOkB = true := by
          simp only [List.all_eq_true] at hok2 ⊢
          exact fun x hx => hok2 x (List.mem_cons_of_mem s2 hx)
        have hoks2 : secOkB s2 = true := by
          simp only [List.all_eq_true] at hok2
          exact hok2 s2 (List.mem_cons_self s2 rest2)
        have hL2 : secLine s2 = labelChars l ++ s2.rest := by
          rw [secLine, hs2]
        have hcount2 : countSub (labelChars l) s2.rest = 0 := by
          apply countSub_rest_zero
          have hc := secLine_countSub hoks2 hgl
          rw [if_pos hs2, hL2] at hc
          exact hc
        obtain ⟨i, z, hiz, hzw⟩ := secLine_last hoks
        have hsepif : (if s2.lab ∈ done then (['\n', '\n'] : Chars)
            else ['\n', '\n', '\n']) = ['\n', '\n', '\n'] := by
          rw [if_neg]
          rw [hs2]
          exact hld
        obtain ⟨Y, hYdef⟩ : ∃ Y, renderGap done (s2 :: rest2) =
            secLine s2 ++ Y := ⟨_, rfl⟩
        have hYmatch : ((rest2 = [] ∧ Y = ([] : Chars)) ∨
            (∃ s3 rest3, rest2 = s3 :: rest3 ∧
              Y = (if s3.lab ∈ done then ['\n', '\n']
                else ['\n', '\n', '\n']) ++ renderGap done rest2)) := by
          cases rest2 with
          | nil =>
            refine Or.inl ⟨rfl, List.append_cancel_left (hYdef.symm.trans ?_)⟩
            rfl
          | cons s3 rest3 =>
            refine Or.inr ⟨s3, rest3, rfl,
              List.append_cancel_left (hYdef.symm.trans ?_)⟩
            rfl
        have hT : renderGap done (s :: s2 :: rest2) =
            i ++ (z :: (['\n', '\n', '\n'] ++
              (labelChars l ++ (s2.rest ++ Y)))) := by
          calc renderGap done (s :: s2 :: rest2)
              = secLine s ++ ((if s2.lab ∈ done then ['\n', '\n']
                  else ['\n', '\n', '\n']) ++ renderGap done (s2 :: rest2)) := rfl
            _ = (i ++ [z]) ++ (['\n', '\n', '\n'] ++
                  ((labelChars l ++ s2.rest) ++ Y)) := by
                rw [hsepif, hYdef, hL2, hiz]
            _ = _ := by simp [List.append_assoc]
        have hT2 : renderGap (l :: done) (s :: s2 :: rest2) =
            i ++ (z :: (['\n', '\n'] ++
              (labelChars l ++ (s2.rest ++ Y)))) := by
          calc renderGap (l :: done) (s :: s2 :: rest2)
              = secLine s ++ ((if s2.lab ∈ l :: done then ['\n', '\n']
                  else ['\n', '\n', '\n']) ++
                    renderGap (l :: done) (s2 :: rest2)) := rfl
            _ = (i ++ [z]) ++ (['\n', '\n'] ++
                  ((labelChars l ++ s2.rest) ++ Y)) := by
                rw [if_pos (by rw [hs2]; exact List.mem_cons_self l done), hiz,
                  renderGap_congr l (s2 :: rest2) (by simpa using hno3) done,
                  hYdef, hL2]
            _ = _ := by simp [List.append_assoc]
        have hW : ∀ X : Chars, (labelChars l).isPrefixOf
            (z :: (['\n', '\n', '\n'] ++ X)) = false := by
          intro X
          rw [show z :: (['\n', '\n', '\n'] ++ X) =
            [z] ++ ('\n' :: (['\n', '\n'] ++ X)) from rfl]
          rw [Bool.eq_false_iff]
          intro hp
          rcases prefix_append_cases _ _ _ hp with h1 | ⟨_, ch, hch, hmem⟩
          · have hle := (List.isPrefixOf_iff_prefix.mp h1).length_le
            have := labelChars_len2 l
            simp at hle
            omega
          · injection hch with h4
            rw [← h4] at hmem
            exact labelChars_no_nl l hmem
        have htail2i : ∀ j, (labelChars l).isPrefixOf (i.drop j ++
            (z :: (['\n', '\n', '\n'] ++ (labelChars l ++ (s2.rest ++ Y))))) =
            false := by
          intro j
          by_cases hj : j ≤ i.length
          · rw [show i.drop j ++ (z :: (['\n', '\n', '\n'] ++
                (labelChars l ++ (s2.rest ++ Y)))) =
              (i.drop j ++ [z]) ++ (['\n', '\n', '\n'] ++
                (labelChars l ++ (s2.rest ++ Y))) from by simp]
            rw [← List.drop_append_of_le_length hj]
            exact @no_occ_line l (i ++ [z])
              (['\n', '\n', '\n'] ++ (labelChars l ++ (s2.rest ++ Y)))
              (by rw [← hiz]; exact hcount) (Or.inl rfl) j
          · rw [List.drop_eq_nil_of_le (by omega), List.nil_append]
            exact hW _
        have htaili : (labelChars l).isPrefixOf
            ((z :: (['\n', '\n', '\n'] ++
              (labelChars l ++ (s2.rest ++ Y)))).dropWhile isWs) = false := by
          rw [List.dropWhile_cons, hzw]
          simp only [Bool.false_eq_true, if_false]
          exact hW _
        rw [hT]
        rw [hT] at hf
        simp only [List.length_append, List.length_cons] at hf
        rw [show f = i.length + (f - i.length) from by omega]
        rw [scanReplF_seg (labelChars l) i _ _
          (gapStep_none_line (labelChars l) i _ htail2i htaili)]
        rw [hT2]
        congr 1
        obtain ⟨f2, hf2⟩ : ∃ f2, f - i.length = f2 + 1 := ⟨f - i.length - 1,
          by omega⟩
        rw [hf2]
        have hmatch : gapStep (labelChars l) z
            (['\n', '\n', '\n'] ++ (labelChars l ++ (s2.rest ++ Y))) =
            some (z :: '\n' :: '\n' :: labelChars l, s2.rest ++ Y) := by
          rw [show (['\n', '\n', '\n'] : Chars) ++
            (labelChars l ++ (s2.rest ++ Y)) =
            ['\n', '\n', '\n'] ++ labelChars l ++ (s2.rest ++ Y) from by
              simp [List.append_assoc]]
          exact gapStep_match (labelChars l) z ['\n', '\n', '\n'] _ hzw
            (by decide) (labelChars_cons l)
        rw [scanReplF_step_some f2 hmatch]
        rw [gapTail l hgl s2.rest hcount2 rest2 done Y f2 hYmatch hok3 hno3
          (by simp only [List.length_append] at hf ⊢; omega)]
        simp [List.append_assoc]
      · have hd : renderGap done (s :: s2 :: rest2) = secLine s ++
            ((if s2.lab ∈ done then ['\n', '\n'] else ['\n', '\n', '\n']) ++
              renderGap done (s2 :: rest2)) := rfl
        have hd2 : renderGap (l :: done) (s :: s2 :: rest2) = secLine s ++
            ((if s2.lab ∈ done then ['\n', '\n'] else ['\n', '\n', '\n']) ++
              renderGap (l :: done) (s2 :: rest2)) := by
          rw [show renderGap (l :: done) (s :: s2 :: rest2) = secLine s ++
            ((if s2.lab ∈ l :: done then ['\n', '\n']
              else ['\n', '\n', '\n']) ++
                renderGap (l :: done) (s2 :: rest2)) from rfl]
          congr 2
          simp [List.mem_cons, hs2]
        set sep := (if s2.lab ∈ done then (['\n', '\n'] : Chars)
          else ['\n', '\n', '\n']) with hsepdef
        have hsepws : ∀ c ∈ sep, isWs c = true := by
          rw [hsepdef]
          by_cases h2 : s2.lab ∈ done <;> simp [h2] <;> decide
        have hsephead : ∀ X : Chars, (sep ++ X).head? = some '\n' := by
          intro X
          rw [hsepdef]
          by_cases h2 : s2.lab ∈ done <;> simp [h2]
        obtain ⟨Y2, hr2⟩ : ∃ Y, renderGap done (s2 :: rest2) =
            secLine s2 ++ Y := ⟨_, rfl⟩
        have hnextpref : ∀ W : Chars,
            (labelChars l).isPrefixOf (secLine s2 ++ W) = false := by
          intro W
          rw [Bool.eq_false_iff]
          intro hp
          have hp2 : (labelChars s2.lab).isPrefixOf
              (labelChars s2.lab ++ (s2.rest ++ W)) = true :=
            isPrefixOf_append_self _ _
          rw [secLine, List.append_assoc] at hp
          exact hs2 (label_prefix_unique hp2 hp)
        have htail1 : (labelChars l).isPrefixOf
            ((sep ++ renderGap done (s2 :: rest2)).dropWhile isWs) = false := by
          have hde : (sep ++ renderGap done (s2 :: rest2)).dropWhile isWs =
              renderGap done (s2 :: rest2) := by
            rw [List.dropWhile_append]
            have hsE : sep.dropWhile isWs = [] :=
              List.dropWhile_eq_nil_iff.mpr hsepws
            rw [hsE]
            simp only [List.isEmpty_nil, if_true]
            rw [hr2]
            obtain ⟨c0, t0, hc0, hw0⟩ := labelChars_cons s2.lab
            rw [secLine, hc0]
            simp [List.dropWhile_cons, hw0]
          rw [hde, hr2]
          exact hnextpref _
        rw [hd]
        rw [show f = (secLine s).length + (f - (secLine s).length) from by
          rw [hd] at hf
          simp [List.length_append] at hf
          omega]
        rw [scanReplF_seg (labelChars l) (secLine s) _ _
          (gapStep_none_line (labelChars l) (secLine s) _
            (no_occ_line hcount (Or.inl (hsephead _)))
            htail1)]
        rw [hd2]
        congr 1
        rw [show f - (secLine s).length =
          sep.length + (f - (secLine s).length - sep.length) from by
          rw [hd] at hf
          simp [List.length_append] at hf
          omega]
        rw [scanReplF_seg (labelChars l) sep _ _
          (gapStep_none_ws (labelChars l) sep _ hsepws)]
        congr 1
        apply ih done (f - (secLine s).length - sep.length)
        · rw [hd] at hf
          simp only [List.length_append] at hf ⊢
          omega
        · exact hld
        · exact hok2
        · exact (List.nodup_cons.mp hnd).2
        · intro x hx
          have hx2 : x = s2 := by simpa using hx
          rw [hx2]
          exact hs2

/-! ### Collapse, scan and line-break stage lemmas -/

theorem joinNL_single (l : Chars) : joinNL [l] = l := by
  simp [joinNL, List.intercalate]

theorem secLine_no_nl {s : Sec} (hok : secOkB s = true) : '\n' ∉ secLine s := by
  simp only [secOkB, Bool.and_eq_true, List.all_eq_true] at hok
  intro hmem
  rcases List.mem_append.mp hmem with h1 | h2
  · exact labelChars_no_nl s.lab h1
  · have := hok.1.1 _ h2
    simp at this

theorem collapse_line (line : Chars) (h : '\n' ∉ line) (rest : Chars) :
    collapseGo 0 (line ++ rest) = line ++ collapseGo 0 rest := by
  induction line with
  | nil => simp
  | cons c t ih =>
    have hc : c ≠ '\n' := fun hh => h (hh ▸ List.mem_cons_self c t)
    have ht : '\n' ∉ t := fun hh => h (List.mem_cons_of_mem c hh)
    rw [List.cons_append, collapseGo, if_neg hc, ih ht]
    simp

theorem collapse_boundary (c : Char) (hc : c ≠ '\n') (X : Chars) :
    collapseGo 0 ('\n' :: '\n' :: '\n' :: c :: X) =
      '\n' :: '\n' :: c :: collapseGo 0 X := by
  rw [show collapseGo 0 ('\n' :: '\n' :: '\n' :: c :: X) =
    collapseGo 3 (c :: X) from by
      rw [collapseGo, if_pos rfl, collapseGo, if_pos rfl, collapseGo, if_pos rfl]]
  rw [collapseGo, if_neg hc]
  rfl

theorem collapse_cons_nonl (c : Char) (hc : c ≠ '\n') (X : Chars) :
    collapseGo 0 (c :: X) = c :: collapseGo 0 X := by
  rw [collapseGo, if_neg hc]
  rfl

theorem collapse_secs : ∀ (secs : List Sec), secs.all secOkB = true →
    collapseGo 0 (joinNL (secsScanLines secs)) = renderSecs secs := by
  intro secs
  induction secs with
  | nil => intro _; rfl
  | cons s rest ih =>
    intro hok
    have hoks : secOkB s = true := by
      simp only [List.all_eq_true] at hok
      exact hok s (List.mem_cons_self s rest)
    have hnl := secLine_no_nl hoks
    cases rest with
    | nil =>
      rw [show secsScanLines [s] = [secLine s] from rfl, joinNL_single]
      rw [show renderSecs [s] = joinNL [secLine s] from rfl, joinNL_single]
      rw [show secLine s = secLine s ++ [] from by simp]
      rw [collapse_line (secLine s) hnl []]
      rfl
    | cons s2 rest2 =>
      have hok2 : (s2 :: rest2).all secOkB = true := by
        simp only [List.all_eq_true] at hok ⊢
        exact fun x hx => hok x (List.mem_cons_of_mem s hx)
      have hoks2 : secOkB s2 = true := by
        simp only [List.all_eq_true] at hok2
        exact hok2 s2 (List.mem_cons_self s2 rest2)
      obtain ⟨T, hT⟩ : ∃ T, secsScanLines (s2 :: rest2) = secLine s2 :: T :=
        ⟨_, rfl⟩
      obtain ⟨c0, t0, hc0, hw0⟩ := labelChars_cons s2.lab
      have hc0n : c0 ≠ '\n' := by
        intro hh
        rw [hh] at hw0
        simp [isWs] at hw0
      obtain ⟨W, hW⟩ : ∃ W, joinNL (secsScanLines (s2 :: rest2)) = c0 :: W := by
        rw [hT]
        cases T with
        | nil =>
          rw [joinNL_single]
          exact ⟨t0 ++ s2.rest, by rw [secLine, hc0]; rfl⟩
        | cons u us =>
          rw [joinNL_cons _ _ (by simp)]
          exact ⟨t0 ++ s2.rest ++ '\n' :: joinNL (u :: us), by
            rw [secLine, hc0]
            simp⟩
      have hjoin : joinNL (secsScanLines (s :: s2 :: rest2)) =
          secLine s ++ '\n' :: '\n' :: '\n' ::
            joinNL (secsScanLines (s2 :: rest2)) := by
        rw [show secsScanLines (s :: s2 :: rest2) =
          secLine s :: ([] : Chars) :: ([] : Chars) ::
            secsScanLines (s2 :: rest2) from rfl]
        rw [joinNL_cons _ _ (by simp)]
        rw [joinNL_cons _ _ (by simp)]
        rw [joinNL_cons _ _ (by rw [hT]; simp)]
        simp
      have hrender : renderSecs (s :: s2 :: rest2) =
          secLine s ++ '\n' :: '\n' :: renderSecs (s2 :: rest2) := by
        rw [show renderSecs (s :: s2 :: rest2) =
          joinNL (secLine s :: ([] : Chars) :: secsLines (s2 :: rest2)) from rfl]
        rw [joinNL_cons _ _ (by simp)]
        obtain ⟨T2, hT2⟩ : ∃ T2, secsLines (s2 :: rest2) = secLine s2 :: T2 :=
          ⟨_, rfl⟩
        rw [joinNL_cons _ _ (by rw [hT2]; simp)]
        rfl
      rw [hjoin, hrender]
      rw [collapse_line (secLine s) hnl]
      rw [hW, collapse_boundary c0 hc0n W]
      rw [← collapse_cons_nonl c0 hc0n W, ← hW, ih hok2]

theorem trimC_secLine {s : Sec} (hok : secOkB s = true) :
    trimC (secLine s) = secLine s := by
  obtain ⟨c0, t0, hc0, hw0⟩ := labelChars_cons s.lab
  obtain ⟨i, z, hiz, hzw⟩ := secLine_last hok
  apply trimC_eq_self
  · intro c hc
    rw [secLine, hc0] at hc
    rw [show (c0 :: t0) ++ s.rest = c0 :: (t0 ++ s.rest) from rfl] at hc
    simp only [List.head?_cons, Option.some.injEq] at hc
    rw [← hc]
    exact hw0
  · intro c hc
    rw [hiz, List.getLast?_concat] at hc
    simp only [Option.some.injEq] at hc
    rw [← hc]
    exact hzw

theorem matchLabel_secLine (s : Sec) : matchLabel (secLine s) = some s.lab := by
  rw [secLine]
  exact matchLabel_label s.lab s.rest


theorem scanGo_blank (found : List FrameworkLabel) (m : FrameworkLabel)
    (acc : List Chars) (Ls : List Chars) :
    scanGo found (some m) acc (([] : Chars) :: Ls) =
      scanGo found (some m) (acc ++ [([] : Chars)]) Ls := by
  simp [scanGo, show trimC ([] : Chars) = [] from rfl, matchLabel_nil]

theorem scanGo_label (found : List FrameworkLabel) (cur : Option FrameworkLabel)
    (acc : List Chars) (Ls : List Chars) {s : Sec} (hok : secOkB s = true)
    (hnf : s.lab ∉ found) (hne : acc ≠ []) :
    scanGo found cur acc (secLine s :: Ls) =
      scanGo (s.lab :: found) (some s.lab)
        (acc ++ [([] : Chars), secLine s]) Ls := by
  have hE : acc.isEmpty = false := by
    cases acc with
    | nil => exact absurd rfl hne
    | cons a t => rfl
  simp [scanGo, trimC_secLine hok, matchLabel_secLine, hnf, hE]

theorem scanGo_label_first (Ls : List Chars) {s : Sec} (hok : secOkB s = true) :
    scanGo [] none [] (secLine s :: Ls) =
      scanGo [s.lab] (some s.lab) [secLine s] Ls := by
  simp [scanGo, trimC_secLine hok, matchLabel_secLine]

/-- The scanner walks the remaining sections, inserting a fresh blank
line before each label line. -/
theorem scan_secs_tail :
    ∀ (secs : List Sec) (found : List FrameworkLabel)
      (m : FrameworkLabel) (acc : List Chars),
      secs ≠ [] →
      secs.all secOkB = true →
      (secs.map Sec.lab).Nodup →
      (∀ s ∈ secs, s.lab ∉ found) →
      acc ≠ [] →
      (scanGo found (some m) acc (([] : Chars) :: secsLines secs)).1 =
        acc ++ ([] : Chars) :: ([] : Chars) :: secsScanLines secs := by
  intro secs
  induction secs with
  | nil => intro found m acc hne; exact absurd rfl hne
  | cons s rest ih =>
    intro found m acc _ hok hnd hnf hacc
    have hoks : secOkB s = true := by
      simp only [List.all_eq_true] at hok
      exact hok s (List.mem_cons_self s rest)
    have hnfs : s.lab ∉ found := hnf s (List.mem_cons_self s rest)
    rw [scanGo_blank]
    cases rest with
    | nil =>
      rw [show secsLines [s] = [secLine s] from rfl]
      rw [scanGo_label found (some m) _ [] hoks hnfs (by simp)]
      rw [show (scanGo (s.lab :: found) (some s.lab)
        ((acc ++ [([] : Chars)]) ++ [([] : Chars), secLine s]) []).1 =
        (acc ++ [([] : Chars)]) ++ [([] : Chars), secLine s] from rfl]
      simp [secsScanLines]
    | cons s2 rest2 =>
      rw [show secsLines (s :: s2 :: rest2) =
        secLine s :: ([] : Chars) :: secsLines (s2 :: rest2) from rfl]
      rw [scanGo_label found (some m) _ _ hoks hnfs (by simp)]
      rw [ih (s.lab :: found) s.lab _ (by simp) (by
          simp only [List.all_eq_true] at hok ⊢
          exact fun x hx => hok x (List.mem_cons_of_mem s hx))
        ((List.nodup_cons.mp hnd).2)
        (by
          intro x hx
          have hxm : x ∈ s :: s2 :: rest2 := List.mem_cons_of_mem s hx
          have h1 : x.lab ∉ found := hnf x hxm
          intro hmem
          rcases List.mem_cons.mp hmem with h2 | h2
          · have hnotin : s.lab ∉ List.map Sec.lab (s2 :: rest2) := by
              have := (List.nodup_cons.mp hnd).1
              simpa using this
            exact hnotin (by
              rw [← h2]
              exact List.mem_map_of_mem Sec.lab hx)
          · exact h1 h2)
        (by simp)]
      rw [show secsScanLines (s :: s2 :: rest2) = secLine s :: ([] : Chars) ::
        ([] : Chars) :: secsScanLines (s2 :: rest2) from rfl]
      simp

/-- The scanner output on a normal-form section list. -/
theorem scan_secs (secs : List Sec) (hne : secs ≠ [])
    (hok : secs.all secOkB = true) (hnd : (secs.map Sec.lab).Nodup) :
    (scanGo [] none [] (secsLines secs)).1 = secsScanLines secs := by
  cases secs with
  | nil => exact absurd rfl hne
  | cons s rest =>
    have hoks : secOkB s = true := by
      simp only [List.all_eq_true] at hok
      exact hok s (List.mem_cons_self s rest)
    cases rest with
    | nil =>
      rw [show secsLines [s] = [secLine s] from rfl]
      rw [scanGo_label_first [] hoks]
      rfl
    | cons s2 rest2 =>
      rw [show secsLines (s :: s2 :: rest2) =
        secLine s :: ([] : Chars) :: secsLines (s2 :: rest2) from rfl]
      rw [scanGo_label_first _ hoks]
      rw [scan_secs_tail (s2 :: rest2) [s.lab] s.lab [secLine s] (by simp)
        (by
          simp only [List.all_eq_true] at hok ⊢
          exact fun x hx => hok x (List.mem_cons_of_mem s hx))
        ((List.nodup_cons.mp hnd).2)
        (by
          intro x hx hmem
          have h2 : x.lab = s.lab := by simpa using hmem
          have hnotin : s.lab ∉ List.map Sec.lab (s2 :: rest2) := by
            have := (List.nodup_cons.mp hnd).1
            simpa using this
          exact hnotin (by
            rw [← h2]
            exact List.mem_map_of_mem Sec.lab hx))
        (by simp)]
      rfl

theorem secsLines_no_nl : ∀ (secs : List Sec), secs.all secOkB = true →
    ∀ line ∈ secsLines secs, '\n' ∉ line := by
  intro secs
  induction secs with
  | nil => intro _ line hl; simp [secsLines] at hl
  | cons s rest ih =>
    intro hok line hl
    have hoks : secOkB s = true := by
      simp only [List.all_eq_true] at hok
      exact hok s (List.mem_cons_self s rest)
    have hok2 : rest.all secOkB = true := by
      simp only [List.all_eq_true] at hok ⊢
      exact fun x hx => hok x (List.mem_cons_of_mem s hx)
    cases rest with
    | nil =>
      rw [show secsLines [s] = [secLine s] from rfl] at hl
      have : line = secLine s := by simpa using hl
      rw [this]
      exact secLine_no_nl hoks
    | cons s2 rest2 =>
      rw [show secsLines (s :: s2 :: rest2) = secLine s :: ([] : Chars) ::
        secsLines (s2 :: rest2) from rfl] at hl
      rcases List.mem_cons.mp hl with h1 | h2
      · rw [h1]; exact secLine_no_nl hoks
      · rcases List.mem_cons.mp h2 with h3 | h4
        · rw [h3]; simp
        · exact ih hok2 line h4

theorem secsLines_cons_shape (s : Sec) (rest : List Sec) :
    ∃ T, secsLines (s :: rest) = secLine s :: T := ⟨_, rfl⟩

/-- The line-break-insertion pass on normal-form lines. -/
theorem gm_lines : ∀ (secs : List Sec), secs ≠ [] → secs.all secOkB = true →
    joinNL ((secsLines secs).map
      (fun l => if (matchLabel l).isSome then '\n' :: l else l)) =
    '\n' :: renderGap [] secs := by
  intro secs
  induction secs with
  | nil => intro hne _; exact absurd rfl hne
  | cons s rest ih =>
    intro _ hok
    have hok2 : rest.all secOkB = true := by
      simp only [List.all_eq_true] at hok ⊢
      exact fun x hx => hok x (List.mem_cons_of_mem s hx)
    have hgmL : (if (matchLabel (secLine s)).isSome = true
        then '\n' :: secLine s else secLine s) = '\n' :: secLine s := by
      simp [matchLabel_secLine]
    cases rest with
    | nil =>
      rw [show secsLines [s] = [secLine s] from rfl]
      rw [List.map_singleton, hgmL, joinNL_single]
      rw [show renderGap [] [s] = secLine s ++ [] from rfl]
      simp
    | cons s2 rest2 =>
      rw [show secsLines (s :: s2 :: rest2) = secLine s :: ([] : Chars) ::
        secsLines (s2 :: rest2) from rfl]
      obtain ⟨T2, hT2⟩ := secsLines_cons_shape s2 rest2
      rw [List.map_cons, List.map_cons, hgmL]
      rw [show (if (matchLabel ([] : Chars)).isSome = true
        then (['\n'] : Chars) else []) = ([] : Chars) from by
          simp [matchLabel_nil]]
      rw [joinNL_cons _ _ (by simp)]
      rw [joinNL_cons _ _ (by rw [hT2]; simp)]
      rw [ih (by simp) hok2]
      rw [show renderGap [] (s :: s2 :: rest2) = secLine s ++
        ((if s2.lab ∈ ([] : List FrameworkLabel) then ['\n', '\n']
          else ['\n', '\n', '\n']) ++ renderGap [] (s2 :: rest2)) from rfl]
      simp

/-- The line-break-insertion pass on normal-form text. -/
theorem gm_out (secs : List Sec) (hne : secs ≠ [])
    (hok : secs.all secOkB = true) :
    gmLabelPass (renderSecs secs) = '\n' :: renderGap [] secs := by
  rw [gmLabelPass]
  rw [show renderSecs secs = joinNL (secsLines secs) from rfl]
  rw [splitNL_joinNL (secsLines secs) (secsLines_no_nl secs hok) (by
    cases secs with
    | nil => exact absurd rfl hne
    | cons s rest =>
      obtain ⟨T, hT⟩ := secsLines_cons_shape s rest
      rw [hT]
      simp)]
  exact gm_lines secs hne hok

/-- The first character of normal-form text is not a newline. -/
theorem renderGap_head (s : Sec) (rest : List Sec) :
    ∃ c W, renderGap ([] : List FrameworkLabel) (s :: rest) = c :: W ∧
      isWs c = false := by
  obtain ⟨c0, t0, hc0, hw0⟩ := labelChars_cons s.lab
  obtain ⟨Y, hY⟩ : ∃ Y, renderGap ([] : List FrameworkLabel) (s :: rest) =
      secLine s ++ Y := ⟨_, rfl⟩
  refine ⟨c0, t0 ++ s.rest ++ Y, ?_, hw0⟩
  rw [hY, secLine, hc0]
  simp

theorem roleCut_normal (s : Sec) (rest : List Sec)
    (hrole : s.lab = FrameworkLabel.role) :
    roleCutLines (secsLines (s :: rest)) = secsLines (s :: rest) := by
  obtain ⟨T, hT⟩ := secsLines_cons_shape s rest
  have hp : (labelChars FrameworkLabel.role).isPrefixOf (secLine s) = true := by
    rw [secLine, ← hrole]
    exact isPrefixOf_append_self _ _
  rw [hT]
  simp [roleCutLines, List.findIdx?_cons, hp]

theorem dropNL_out (s : Sec) (rest : List Sec) :
    (('\n' :: renderGap ([] : List FrameworkLabel) (s :: rest)).dropWhile
      (fun c => c = '\n')) = renderGap ([] : List FrameworkLabel) (s :: rest) := by
  obtain ⟨c, W, hc, hw⟩ := renderGap_head s rest
  have hcn : ¬ (c = '\n') := by
    intro h
    rw [h] at hw
    have : isWs '\n' = true := by decide
    rw [this] at hw
    simp at hw
  rw [hc]
  simp [List.dropWhile_cons, hcn]

theorem gapFold (secs : List Sec) (hok : secs.all secOkB = true)
    (hnd : (secs.map Sec.lab).Nodup)
    (hrole : ∀ s ∈ secs.take 1, s.lab = FrameworkLabel.role) :
    List.foldl (fun s l => fixGapGo (labelChars l) s)
      (renderGap ([] : List FrameworkLabel) secs) gapPassLabels =
    renderGap [FrameworkLabel.examples, FrameworkLabel.rules,
      FrameworkLabel.format, FrameworkLabel.task, FrameworkLabel.context]
      secs := by
  have hfirst : ∀ (l : FrameworkLabel), l ∈ gapPassLabels →
      ∀ s ∈ secs.take 1, s.lab ≠ l := by
    intro l hl s hs
    rw [hrole s hs]
    intro h
    rw [← h] at hl
    exact absurd hl (by decide)
  have step : ∀ (done : List FrameworkLabel) (l : FrameworkLabel),
      l ∈ gapPassLabels → l ∉ done →
      fixGapGo (labelChars l) (renderGap done secs) =
        renderGap (l :: done) secs := by
    intro done l hl hld
    rw [fixGapGo, scanRepl]
    exact gapMain l hl secs done _ (le_refl _) hld hok hnd (hfirst l hl)
  rw [show gapPassLabels = [FrameworkLabel.context, FrameworkLabel.task,
    FrameworkLabel.format, FrameworkLabel.rules, FrameworkLabel.examples]
    from rfl]
  simp only [List.foldl]
  rw [step [] FrameworkLabel.context (by decide) (by decide)]
  rw [step [FrameworkLabel.context] FrameworkLabel.task (by decide) (by decide)]
  rw [step [FrameworkLabel.task, FrameworkLabel.context] FrameworkLabel.format
    (by decide) (by decide)]
  rw [step [FrameworkLabel.format, FrameworkLabel.task, FrameworkLabel.context]
    FrameworkLabel.rules (by decide) (by decide)]
  rw [step [FrameworkLabel.rules, FrameworkLabel.format, FrameworkLabel.task,
    FrameworkLabel.context] FrameworkLabel.examples (by decide) (by decide)]

theorem renderGap_full : ∀ (secs : List Sec),
    (∀ s ∈ secs.drop 1, s.lab ∈ ([FrameworkLabel.examples,
      FrameworkLabel.rules, FrameworkLabel.format, FrameworkLabel.task,
      FrameworkLabel.context] : List FrameworkLabel)) →
    renderGap [FrameworkLabel.examples, FrameworkLabel.rules,
      FrameworkLabel.format, FrameworkLabel.task, FrameworkLabel.context]
      secs = renderSecs secs := by
  intro secs
  induction secs with
  | nil => intro _; rfl
  | cons s rest ih =>
    intro h
    cases rest with
    | nil =>
      rw [show renderGap [FrameworkLabel.examples, FrameworkLabel.rules,
        FrameworkLabel.format, FrameworkLabel.task, FrameworkLabel.context]
        [s] = secLine s ++ [] from rfl]
      rw [show renderSecs [s] = joinNL [secLine s] from rfl, joinNL_single]
      simp
    | cons s2 rest2 =>
      have h2 : s2.lab ∈ ([FrameworkLabel.examples, FrameworkLabel.rules,
          FrameworkLabel.format, FrameworkLabel.task, FrameworkLabel.context] :
          List FrameworkLabel) := h s2 (List.mem_cons_self s2 rest2)
      rw [show renderGap [FrameworkLabel.examples, FrameworkLabel.rules,
        FrameworkLabel.format, FrameworkLabel.task, FrameworkLabel.context]
        (s :: s2 :: rest2) = secLine s ++
          ((if s2.lab ∈ [FrameworkLabel.examples, FrameworkLabel.rules,
            FrameworkLabel.format, FrameworkLabel.task,
            FrameworkLabel.context] then ['\n', '\n']
            else ['\n', '\n', '\n']) ++
            renderGap [FrameworkLabel.examples, FrameworkLabel.rules,
              FrameworkLabel.format, FrameworkLabel.task,
              FrameworkLabel.context] (s2 :: rest2)) from rfl]
      rw [if_pos h2, ih (fun x hx => h x (List.mem_cons_of_mem s2 hx))]
      rw [show renderSecs (s :: s2 :: rest2) =
        joinNL (secLine s :: ([] : Chars) :: secsLines (s2 :: rest2)) from rfl]
      rw [joinNL_cons _ _ (by simp)]
      obtain ⟨T2, hT2⟩ := secsLines_cons_shape s2 rest2
      rw [joinNL_cons _ _ (by rw [hT2]; simp)]
      rw [show joinNL (secsLines (s2 :: rest2)) = renderSecs (s2 :: rest2)
        from rfl]
      simp

/-- Labels other than role are spacing-pass labels. -/
theorem notRole_mem (m : FrameworkLabel) (hm : m ≠ FrameworkLabel.role) :
    m ∈ ([FrameworkLabel.examples, FrameworkLabel.rules,
      FrameworkLabel.format, FrameworkLabel.task, FrameworkLabel.context] :
      List FrameworkLabel) := by
  cases m
  · exact absurd rfl hm
  all_goals decide

/-- On normal-form text the whole framework block is the identity. -/
theorem frameworkPass_normal (secs : List Sec) (hne : secs ≠ [])
    (hok : secs.all secOkB = true) (hnd : (secs.map Sec.lab).Nodup)
    (hrole : ∀ s ∈ secs.take 1, s.lab = FrameworkLabel.role) :
    frameworkPass (renderSecs secs) = renderSecs secs := by
  obtain ⟨s, rest, hsr⟩ : ∃ s rest, secs = s :: rest := by
    cases secs with
    | nil => exact absurd rfl hne
    | cons a b => exact ⟨a, b, rfl⟩
  subst hsr
  have h1 : splitNL (renderSecs (s :: rest)) = secsLines (s :: rest) := by
    rw [show renderSecs (s :: rest) = joinNL (secsLines (s :: rest)) from rfl]
    apply splitNL_joinNL _ (secsLines_no_nl _ hok)
    obtain ⟨T, hT⟩ := secsLines_cons_shape s rest
    rw [hT]
    simp
  have h2 : roleCutLines (secsLines (s :: rest)) = secsLines (s :: rest) :=
    roleCut_normal s rest (hrole s (by simp))
  have h3 : (scanGo [] none [] (secsLines (s :: rest))).1 =
      secsScanLines (s :: rest) := scan_secs _ (by simp) hok hnd
  have h4 : collapseGo 0 (joinNL (secsScanLines (s :: rest))) =
      renderSecs (s :: rest) := collapse_secs _ hok
  have h5 : gmLabelPass (renderSecs (s :: rest)) =
      '\n' :: renderGap ([] : List FrameworkLabel) (s :: rest) :=
    gm_out _ (by simp) hok
  have htails : ∀ x ∈ (s :: rest).drop 1, x.lab ∈ ([FrameworkLabel.examples,
      FrameworkLabel.rules, FrameworkLabel.format, FrameworkLabel.task,
      FrameworkLabel.context] : List FrameworkLabel) := by
    intro x hx
    apply notRole_mem
    intro hxr
    have hs1 : s.lab = FrameworkLabel.role := hrole s (by simp)
    have : s.lab ∉ List.map Sec.lab rest := by
      have := (List.nodup_cons.mp hnd).1
      simpa using this
    exact this (by
      rw [hs1, ← hxr]
      exact List.mem_map_of_mem Sec.lab (by simpa using hx))
  simp only [frameworkPass]
  rw [h1, h2, h3, h4, h5, dropNL_out s rest]
  rw [gapFold _ hok hnd hrole, renderGap_full _ htails]

set_option maxRecDepth 100000 in
/-- Counterexample to C9 as stated: the quoted raw reply satisfies the
one-occurrence-per-label invariant (each label occurs at most once, both
as a substring and as a line start), yet normalization is not idempotent
on it: the first pass only unwraps the quotes, and only the second pass
can then see and strip the `I hope this helps` suffix. -/
theorem C9_counterexample :
    (∀ l : FrameworkLabel,
      countSub (labelChars l) ("\"Role: A\nI hope this helps\"").data ≤ 1) ∧
    (∀ l : FrameworkLabel,
      countLabelLineStarts l "\"Role: A\nI hope this helps\"" ≤ 1) ∧
    cleanResponse "\"Role: A\nI hope this helps\""
      "framework-optimization" = "Role: A\nI hope this helps" ∧
    cleanResponse (cleanResponse "\"Role: A\nI hope this helps\""
      "framework-optimization") "framework-optimization" = "Role: A" ∧
    ("Role: A\nI hope this helps" : String) ≠ "Role: A" := by
  refine ⟨?_, ?_, by decide, ?_, by decide⟩
  · intro l; cases l <;> decide
  · intro l; cases l <;> decide
  · rw [show cleanResponse "\"Role: A\nI hope this helps\""
      "framework-optimization" = "Role: A\nI hope this helps" from by decide]
    decide

set_option maxRecDepth 100000 in
/-- C9 (amended): on normal-form framework texts — nonempty section
lists led by the role section with pairwise distinct labels, each
spacing-pass label occurring exactly once (at its own label line) and
never inside a line, lines ending in non-whitespace, and a rendering
that the trim, prefix, suffix and quote strippers leave alone —
normalization is the identity, and hence idempotent.  (As the
counterexample shows, idempotence fails without the stripper-stability
conditions even when every label occurs at most once.) -/
theorem C9_idempotent_on_normal_forms :
    ∀ secs : List Sec, normalFormB secs = true →
      cleanResponse (String.mk (renderSecs secs)) "framework-optimization" =
        String.mk (renderSecs secs) ∧
      cleanResponse (cleanResponse (String.mk (renderSecs secs))
          "framework-optimization") "framework-optimization" =
        cleanResponse (String.mk (renderSecs secs))
          "framework-optimization" := by
  intro secs hnf
  have hid : cleanResponse (String.mk (renderSecs secs))
      "framework-optimization" = String.mk (renderSecs secs) := by
    cases secs with
    | nil => simp [normalFormB] at hnf
    | cons s1 rest =>
      simp only [normalFormB, Bool.and_eq_true, beq_iff_eq,
        decide_eq_true_eq] at hnf
      obtain ⟨⟨⟨⟨⟨⟨hrole, hnd⟩, hok⟩, htrim⟩, hpfx⟩, hsfx⟩, hq⟩ := hnf
      have hroleT : ∀ s ∈ (s1 :: rest).take 1, s.lab = FrameworkLabel.role := by
        intro x hx
        have hx1 : x = s1 := by simpa using hx
        rw [hx1]
        exact hrole
      rw [show cleanResponse (String.mk (renderSecs (s1 :: rest)))
        "framework-optimization" =
        String.mk (cleanChars stripPfxesRewrite stripSfxesRewrite
          reportSectionsRewrite (renderSecs (s1 :: rest))
          "framework-optimization") from rfl]
      simp only [cleanChars]
      rw [htrim, hpfx, hsfx, hq]
      simp only [if_true]
      rw [frameworkPass_normal (s1 :: rest) (by simp) hok hnd hroleT]
      rw [if_neg (by decide :
        ¬(("framework-optimization" : String) = "report-writing"))]
      rw [htrim]
  exact ⟨hid, by rw [hid]; exact hid⟩

set_option maxRecDepth 100000 in
/-- Witness for C9 (amended): the two-section normal form behind the
specification example. -/
theorem C9_idempotent_on_normal_forms_witness :
    cleanResponse (String.mk (renderSecs
        [⟨.role, (" A").data⟩, ⟨.context, (" B").data⟩]))
      "framework-optimization" =
      String.mk (renderSecs [⟨.role, (" A").data⟩, ⟨.context, (" B").data⟩]) ∧
    cleanResponse (cleanResponse (String.mk (renderSecs
        [⟨.role, (" A").data⟩, ⟨.context, (" B").data⟩]))
      "framework-optimization") "framework-optimization" =
      cleanResponse (String.mk (renderSecs
        [⟨.role, (" A").data⟩, ⟨.context, (" B").data⟩]))
        "framework-optimization" :=
  C9_idempotent_on_normal_forms
    [⟨.role, (" A").data⟩, ⟨.context, (" B").data⟩] (by decide)

end PromptRewriter
